import Mathlib

/-!
Verification of the strateg-synergy analytical assistant.

This file gives a shallow embedding, in Lean 4, of the core logic of the
repository (src/streamlit_app.py and src/final_strategy_agent.py):

* the tolerant text parsing of the FinalStrategy blob into strategy and
  SWOT records (tab 4 of the app), including the regex-based score
  extraction, header splitting and SWOT category capture;
* the ranking of strategy records by Optimality with stable tie-breaking;
* the tolerant Websearch payload unwrapping (tab 2), including a model of
  the JSON decoding performed by json.loads;
* the marker-based splitting done by build_final_strategy;
* the per-session orchestration state machine: registering background
  handles, the reconciliation poll with timeout+grace, and the
  FinalStrategy auto-trigger.

Strings are modelled as `List Char`.  Regular-expression searches from the
source are compiled by hand into deterministic scanners; each scanner's
doc comment names the regex of the source it embeds.  Python operations
that can raise are modelled as `Option`-valued.
-/

/-! ## Basic character and string helpers (Python semantics) -/

/-- Characters treated as whitespace by Python's `str.strip` and `\s`. -/
def isPySpace (c : Char) : Bool :=
  c = ' ' || c = '\t' || c = '\n' || c = '\r' || c = '\x0b' || c = '\x0c'

/-- ASCII decimal digit, the `\d` class of the source's regexes (the
source's patterns are only ever fed ASCII digit runs in the scores
format; other Unicode decimal digits are out of scope here). -/
def isDigitC (c : Char) : Bool :=
  48 ≤ c.toNat && c.toNat ≤ 57

/-- Python `str.strip()`: remove leading and trailing whitespace. -/
def pyStrip (l : List Char) : List Char :=
  ((l.dropWhile isPySpace).reverse.dropWhile isPySpace).reverse

/-- If `p` is a literal prefix of `t`, return the remainder of `t`. -/
def dropPref : List Char → List Char → Option (List Char)
  | [], t => some t
  | _ :: _, [] => none
  | p :: ps, c :: cs => if c = p then dropPref ps cs else none

/-- Whether `p` is a literal prefix of `t` (Python `str.startswith`). -/
def startsL (p t : List Char) : Bool :=
  (dropPref p t).isSome

/-- Python `s.split(sep, 1)` for a separator known to be non-empty:
`some (before, after)` at the first occurrence, `none` when absent. -/
def pySplit1 (sep : List Char) : List Char → Option (List Char × List Char)
  | [] => none
  | c :: rest =>
    match dropPref sep (c :: rest) with
    | some r => some ([], r)
    | none => (pySplit1 sep rest).map (fun p => (c :: p.1, p.2))

/-- Python `sep in s` (substring test) for non-empty `sep`. -/
def containsSub (sep t : List Char) : Bool :=
  (pySplit1 sep t).isSome

/-- Normalize the line-break characters recognised by Python
`str.splitlines` to a single `'\n'` (`\r\n` collapses to one break). -/
def normNl : List Char → List Char
  | [] => []
  | '\r' :: '\n' :: rest => '\n' :: normNl rest
  | c :: rest =>
    if c = '\r' || c = '\x0b' || c = '\x0c' || c = '\x1c' || c = '\x1d' ||
       c = '\x1e' || c = '\x85' || c = '\u2028' || c = '\u2029'
    then '\n' :: normNl rest
    else c :: normNl rest

/-- Worker for `splitlinesC`: split at `'\n'`, no trailing empty line. -/
def slGo (acc : List Char) : List Char → List (List Char)
  | [] => [acc.reverse]
  | c :: rest =>
    if c = '\n' then
      acc.reverse :: (match rest with | [] => [] | _ :: _ => slGo [] rest)
    else
      slGo (c :: acc) rest

/-- Python `str.splitlines()`. -/
def splitlinesC (l : List Char) : List (List Char) :=
  match l with
  | [] => []
  | _ :: _ => slGo [] (normNl l)

/-- Python `"\n".join(lines)`. -/
def joinNl (ls : List (List Char)) : List Char :=
  List.intercalate ['\n'] ls

/-- Python `s.split('\n')` (keeps trailing empty pieces), used to model
`re.sub` with `^...$` in MULTILINE mode line by line. -/
def splitNlGo (acc : List Char) : List Char → List (List Char)
  | [] => [acc.reverse]
  | c :: rest =>
    if c = '\n' then acc.reverse :: splitNlGo [] rest
    else splitNlGo (c :: acc) rest

/-- Python `s.split('\n')`. -/
def splitNl (l : List Char) : List (List Char) :=
  splitNlGo [] l

/-- Numeric value of a digit string, Python `int` on a run of digits. -/
def digitsToNat (ds : List Char) : ℕ :=
  ds.foldl (fun a c => 10 * a + (c.toNat - 48)) 0

/-- Decimal digit character for `d % 10`-style values. -/
def digitChar (d : ℕ) : Char :=
  if d = 0 then '0' else if d = 1 then '1' else if d = 2 then '2'
  else if d = 3 then '3' else if d = 4 then '4' else if d = 5 then '5'
  else if d = 6 then '6' else if d = 7 then '7' else if d = 8 then '8'
  else '9'

/-- Decimal digits of `n`, most significant first (fuelled worker). -/
def natDigitsAux : ℕ → ℕ → List Char
  | 0, _ => []
  | f + 1, n =>
    if n < 10 then [digitChar n]
    else natDigitsAux f (n / 10) ++ [digitChar (n % 10)]

/-- Decimal digits of `n`, most significant first. -/
def natDigits (n : ℕ) : List Char :=
  natDigitsAux (n + 1) n

/-! ## Score extraction

Embeds `_extract_scores` (src/streamlit_app.py lines 784-792): for each of
the five criterion labels, search the block for `label\s*=\s*(\d+)` and,
failing that, for `label\s*:\s*(\d+)`; record the captured digit run;
criteria matched by neither form are omitted. -/

/-- The five criterion labels of `_extract_scores`. -/
def CRITERIA : List (List Char) :=
  [("Затратность".data), ("Рисковость".data), ("Время".data),
   ("Эффект".data), ("Оптимальность".data)]

/-- The label of the Optimality criterion. -/
def OPT_LABEL : List Char := ("Оптимальность".data)

/-- Attempt the regex `label\s*<delim>\s*(\d+)` anchored at the head of
`t`; returns the captured digit run.  The pattern is deterministic: after
the literal label the greedy `\s*` must stop at the non-whitespace
delimiter, and `(\d+)` is the maximal digit run. -/
def matchScoreAt (label : List Char) (delim : Char) (t : List Char) :
    Option (List Char) :=
  match dropPref label t with
  | none => none
  | some r1 =>
    match r1.dropWhile isPySpace with
    | [] => none
    | d :: r3 =>
      if d = delim then
        let ds := (r3.dropWhile isPySpace).takeWhile isDigitC
        if ds = [] then none else some ds
      else none

/-- `re.search` of `label\s*<delim>\s*(\d+)`: leftmost match wins. -/
def searchScore (label : List Char) (delim : Char) : List Char → Option (List Char)
  | [] => none
  | c :: rest =>
    match matchScoreAt label delim (c :: rest) with
    | some ds => some ds
    | none => searchScore label delim rest

/-- `_extract_scores`: per criterion, `=` form first, then `:` form;
unmatched criteria are silently omitted.  Values are the captured digit
strings, exactly as in the source (which stores `m.group(1)`). -/
def extract_scores (block : List Char) : List (List Char × List Char) :=
  CRITERIA.filterMap (fun label =>
    match searchScore label '=' block with
    | some ds => some (label, ds)
    | none =>
      match searchScore label ':' block with
      | some ds => some (label, ds)
      | none => none)

/-- Association lookup used for Python `dict.get` on the scores map
(keys are inserted at most once, in criterion order). -/
def lookupL (k : List Char) : List (List Char × List Char) → Option (List Char)
  | [] => none
  | (k', v) :: rest => if k' = k then some v else lookupL k rest

/-! ## Strategy header splitting and the tab-4 parsing pipeline

Embeds the parsing in tab 4 of src/streamlit_app.py (lines 746-917):
`re.split(r"\n(?=###\s*Стратегия\s*\d+:)", ...)`, the ranking-block and
scores-line scrubbing, the SWOT category capture, and the rank loop. -/

/-- Anchored match of `###\s*Стратегия\s*(\d+):`; returns the captured
strategy number.  Deterministic: each greedy `\s*` stops at the following
non-whitespace literal, and the maximal digit run must be followed by
`':'`. -/
def headerPat (t : List Char) : Option ℕ :=
  (dropPref ("###".data) t).bind (fun r1 =>
    (dropPref ("Стратегия".data) (r1.dropWhile isPySpace)).bind (fun r2 =>
      let r3 := r2.dropWhile isPySpace
      let ds := r3.takeWhile isDigitC
      if ds = [] then none
      else
        match r3.dropWhile isDigitC with
        | ':' :: _ => some (digitsToNat ds)
        | _ => none))

/-- Worker for `splitHeader`: cut at every `'\n'` whose lookahead matches
the strategy-header pattern (the `'\n'` is consumed, the header is not). -/
def splitHeaderAux (acc : List Char) : List Char → List (List Char)
  | [] => [acc.reverse]
  | c :: rest =>
    if c = '\n' && (headerPat rest).isSome then
      acc.reverse :: splitHeaderAux [] rest
    else
      splitHeaderAux (c :: acc) rest

/-- `re.split(r"\n(?=###\s*Стратегия\s*\d+:)", text)`. -/
def splitHeader (text : List Char) : List (List Char) :=
  splitHeaderAux [] text

/-- One stripped line triggers the ranking-summary scrub when it starts
with `Ранжирование` or an enumerated-medal marker (lines 756 and 872). -/
def isRankingTrigger (s : List Char) : Bool :=
  startsL ("Ранжирование".data) s || startsL ("1️⃣".data) s ||
  startsL ("2️⃣".data) s || startsL ("3️⃣".data) s

/-- `_drop_ranking_block` (and the identical inline header scrub): keep
lines until the first ranking trigger, join and strip. -/
def dropRanking (text : List Char) : List Char :=
  pyStrip (joinNl ((splitlinesC text).takeWhile
    (fun l => !(isRankingTrigger (pyStrip l)))))

/-- `re.search(r"\d+\s*;\s*\d+", s)` tried at one position: a maximal
digit run, optional whitespace, `';'`, optional whitespace, a digit. -/
def semiDigitsAt (t : List Char) : Bool :=
  match t with
  | [] => false
  | c :: _ =>
    if isDigitC c then
      match (t.dropWhile isDigitC).dropWhile isPySpace with
      | ';' :: r2 =>
        match r2.dropWhile isPySpace with
        | d :: _ => isDigitC d
        | [] => false
      | _ => false
    else false

/-- `re.search(r"\d+\s*;\s*\d+", s)`: scan every position. -/
def searchSemiDigits : List Char → Bool
  | [] => false
  | c :: rest => semiDigitsAt (c :: rest) || searchSemiDigits rest

/-- The scores-line test of `_drop_scores_and_rules` on a stripped line. -/
def isScoresLine (s : List Char) : Bool :=
  containsSub ("Оценки".data) s &&
    (containsSub ("Затратность".data) s ||
     containsSub ("Оптимальность".data) s || searchSemiDigits s)

/-- `re.match(r"^[-*_]{2,}\s*$", s)`: at least two rule characters then
only whitespace (the greedy `{2,}` must take the maximal run, since any
shorter stop leaves a non-whitespace rule character). -/
def isRuleLine (s : List Char) : Bool :=
  let run := s.takeWhile (fun c => c = '-' || c = '*' || c = '_')
  2 ≤ run.length && (s.drop run.length).all isPySpace

/-- `_drop_scores_and_rules` (lines 877-888). -/
def dropScoresAndRules (text : List Char) : List Char :=
  pyStrip (joinNl ((splitlinesC text).filter
    (fun l => !(isScoresLine (pyStrip l)) && !(isRuleLine (pyStrip l)))))

/-- `re.sub(r"^Оценки.*?$", "", b, flags=re.MULTILINE)` (line 900):
every line starting with `Оценки` is emptied, the newlines stay. -/
def subOcenki (t : List Char) : List Char :=
  joinNl ((splitNl t).map (fun l => if startsL ("Оценки".data) l then [] else l))

/-- `re.sub(r"^#+\s*", "", title_line)` (line 892). -/
def dropHashes (t : List Char) : List Char :=
  match t with
  | '#' :: _ => (t.dropWhile (fun c => c = '#')).dropWhile isPySpace
  | _ => t

/-! ### SWOT block parsing (lines 763-782) -/

/-- The four 0-5 element bullet lists of one SWOT record. -/
structure SwotRec where
  sS : List (List Char)
  sW : List (List Char)
  sO : List (List Char)
  sT : List (List Char)
deriving DecidableEq, Repr

/-- The empty SWOT record, the default of the `dict.get` at line 916. -/
def emptySwot : SwotRec := ⟨[], [], [], []⟩

/-- The lookahead `(?=\n[A-Z]\s*:|\Z)` of the SWOT category regex,
checked at one position. -/
def lookAZ (t : List Char) : Bool :=
  match t with
  | '\n' :: c :: r =>
    ('A' ≤ c && c ≤ 'Z') &&
      (match r.dropWhile isPySpace with
       | ':' :: _ => true
       | _ => false)
  | _ => false

/-- The lazy `(.*?)` of the category regex under DOTALL: the minimal run
of characters up to the lookahead or the end of the section. -/
def captureUpto : List Char → List Char
  | [] => []
  | c :: rest => if lookAZ (c :: rest) then [] else c :: captureUpto rest

/-- `re.search(rf"{key}\s*:\s*(.*?)(?=\n[A-Z]\s*:|\Z)", p, re.DOTALL)`
attempted at the head of `t`.  After the key letter the greedy `\s*` must
stop at `':'`; the second greedy `\s*` commits to its maximal run because
the tail `(.*?)(?=...|\Z)` always succeeds. -/
def matchCatAt (key : Char) : List Char → Option (List Char)
  | [] => none
  | c :: r1 =>
    if c = key then
      match r1.dropWhile isPySpace with
      | ':' :: r3 => some (captureUpto (r3.dropWhile isPySpace))
      | _ => none
    else none

/-- Leftmost search for the category pattern. -/
def searchCat (key : Char) : List Char → Option (List Char)
  | [] => none
  | c :: rest =>
    match matchCatAt key (c :: rest) with
    | some cap => some cap
    | none => searchCat key rest

/-- Per category: keep the stripped captured lines that start with `-`,
strip the bullet marker, cap at five bullets (lines 774-782). -/
def catBullets (key : Char) (p : List Char) : List (List Char) :=
  match searchCat key p with
  | none => []
  | some cap =>
    ((((splitlinesC cap).map pyStrip).filter (fun l => startsL (['-']) l)).map
      (fun l => pyStrip (l.dropWhile (fun c => c = '-')))).take 5

/-- `swot_by_idx` (lines 764-782): split the SWOT text at strategy
headers, keep the sections whose stripped text matches the header
pattern, and capture the four category bullet lists from the unstripped
section. -/
def parseSwot (swot_all : List Char) : List (ℕ × SwotRec) :=
  if swot_all = [] then []
  else
    (splitHeader swot_all).filterMap (fun p =>
      match headerPat (pyStrip p) with
      | none => none
      | some idx =>
        some (idx, ⟨catBullets 'S' p, catBullets 'W' p,
                    catBullets 'O' p, catBullets 'T' p⟩))

/-- Python dict semantics for `swot_by_idx`: later assignments to the
same index win; `.get` with a default. -/
def swotGet (m : List (ℕ × SwotRec)) (i : ℕ) : Option SwotRec :=
  m.foldl (fun acc p => if p.1 = i then some p.2 else acc) none

/-! ### Strategy blocks, ranking and the rank loop (lines 851-917) -/

/-- One element of `strategy_blocks`: the parsed Optimality-or-0, the
1-based emission index among `blocks[1:]`, and the stripped block text. -/
structure StratBlock where
  opt : ℕ
  idx : ℕ
  text : List Char
deriving DecidableEq, Repr

/-- Python `int(s)` restricted to what the `try/except ValueError` at
lines 858-861 can see: digit strings succeed, everything else falls back
to the caller's default. -/
def parseIntOpt (s : List Char) : Option ℕ :=
  if s ≠ [] && s.all isDigitC then some (digitsToNat s) else none

/-- `scores.get("Оптимальность", "0")` followed by `int` with fallback 0
(lines 857-861). -/
def optIntOf (b : List Char) : ℕ :=
  (parseIntOpt ((lookupL OPT_LABEL (extract_scores b)).getD (['0']))).getD 0

/-- `strategy_blocks` built from the split blocks: enumerate `blocks[1:]`
from 1, strip, skip empty blocks and blocks without the header pattern
(lines 852-862). -/
def stratBlocksOf (blocks : List (List Char)) : List StratBlock :=
  (List.enumFrom 1 (blocks.drop 1)).filterMap (fun p =>
    let b := pyStrip p.2
    if b = [] then none
    else if (headerPat b).isSome then some ⟨optIntOf b, p.1, b⟩
    else none)

/-- `parseStrategies text` = `strategy_blocks` for the given main text. -/
def parseStrategies (text : List Char) : List StratBlock :=
  stratBlocksOf (splitHeader text)

/-- The sort key order of `strategy_blocks.sort(key=lambda x: (-x[0], x[1]))`:
descending Optimality, ties broken by ascending emission index. -/
def stratLE (a b : StratBlock) : Prop :=
  b.opt < a.opt ∨ (a.opt = b.opt ∧ a.idx ≤ b.idx)

instance : DecidableRel stratLE := fun a b => by
  unfold stratLE; infer_instance

instance : IsTotal StratBlock stratLE :=
  ⟨fun a b => by unfold stratLE; omega⟩

instance : IsTrans StratBlock stratLE :=
  ⟨fun a b c hab hbc => by unfold stratLE at *; omega⟩

/-- Python's stable `list.sort` under the key `(-opt, idx)`: insertion
sort by the total preorder `stratLE` (stable, and the keys are total). -/
def sortStrats (l : List StratBlock) : List StratBlock :=
  List.insertionSort stratLE l

/-- The tier-marker characters `cup_chars` (line 865). -/
def cupOf (rank : ℕ) : List Char :=
  if rank = 1 then [Char.ofNat 129351]
  else if rank = 2 then [Char.ofNat 129352]
  else [Char.ofNat 129353]

/-- The displayed title of one ranked strategy (lines 891-895): strip the
leading hashes from the stripped first line; the top three ranks get a
tier marker prefix. -/
def mkTitle (rank : ℕ) (title_rest : List Char) : List Char :=
  if rank ≤ 3 then cupOf rank ++ (' ' :: title_rest) else title_rest

/-- One rendered strategy entry of the rank loop. -/
structure RStrat where
  rank : ℕ
  idx : ℕ
  title : List Char
  scores : List (List Char × List Char)
  desc : List Char
  swot : SwotRec
deriving DecidableEq, Repr

/-- The body of the rank loop (lines 890-917) for one `(rank, block)`
pair.  `b.splitlines()[0]` can raise on an empty block, so the result is
`Option`-valued. -/
def renderOne (swotM : List (ℕ × SwotRec)) (rank : ℕ) (sb : StratBlock) :
    Option RStrat :=
  match (splitlinesC sb.text).head? with
  | none => none
  | some l0 =>
    let title_line := pyStrip l0
    let title_rest := pyStrip (dropHashes title_line)
    let b_no_scores := pyStrip (subOcenki sb.text)
    let desc_raw := pyStrip (joinNl ((splitlinesC b_no_scores).drop 1))
    let desc := dropScoresAndRules (dropRanking desc_raw)
    some ⟨rank, sb.idx, mkTitle rank title_rest, extract_scores sb.text,
          desc, (swotGet swotM sb.idx).getD emptySwot⟩

/-- The rank loop over the sorted blocks, ranks counted from 1. -/
def renderStrats (swotM : List (ℕ × SwotRec)) :
    List (ℕ × StratBlock) → Option (List RStrat)
  | [] => some []
  | (rank, sb) :: rest =>
    match renderOne swotM rank sb with
    | none => none
    | some r => (renderStrats swotM rest).map (fun rs => r :: rs)

/-- The structured outcome of rendering tab 4 for one FinalStrategy
result: the scrubbed header preamble and the ranked strategy entries. -/
structure Tab4Model where
  header : List Char
  strategies : List RStrat
deriving DecidableEq, Repr

/-- The whole tab-4 parsing and ranking pipeline (lines 746-917), from
`main_text` and `swot_text` to the rendered model.  `none` models an
uncaught exception. -/
def tab4Parse (text swot_all : List Char) : Option Tab4Model :=
  (renderStrats (parseSwot swot_all)
      (List.enumFrom 1 (sortStrats (stratBlocksOf (splitHeader text))))).map
    (fun rs =>
      ⟨dropRanking (match splitHeader text with | [] => [] | h :: _ => pyStrip h),
       rs⟩)

/-! ## Python values and a model of `json.loads`

The Websearch raw payload (tab 2, lines 580-651) is decoded with
`json.loads` and inspected with `isinstance`/truthiness.  `PyVal` models
the Python values that can appear; `json_loads` models the strict JSON
decoding of the standard library (a non-integer numeric literal is kept
exactly as a scaled decimal `m * 10 ^ e`). -/

/-- The Python values handled by the tab-2 unwrapping. -/
inductive PyVal where
  | vstr (s : List Char)
  | vint (n : ℤ)
  | vdec (m : ℤ) (e : ℤ)
  | vbool (b : Bool)
  | vnull
  | vlist (xs : List PyVal)
  | vdict (xs : List (List Char × PyVal))

/-- Python truthiness of a `PyVal`. -/
def pyTruthy : PyVal → Bool
  | .vstr s => !s.isEmpty
  | .vint n => n != 0
  | .vdec m _ => m != 0
  | .vbool b => b
  | .vnull => false
  | .vlist xs => !xs.isEmpty
  | .vdict xs => !xs.isEmpty

/-- Python `a or b`. -/
def pyOr (a b : PyVal) : PyVal :=
  if pyTruthy a then a else b

/-- Python dict lookup with default `none`; on duplicate JSON keys the
later assignment wins, as in `json.loads`. -/
def dictGet (k : List Char) (xs : List (List Char × PyVal)) : Option PyVal :=
  xs.foldl (fun acc p => if p.1 = k then some p.2 else acc) none

/-- JSON whitespace. -/
def jIsWs (c : Char) : Bool :=
  c = ' ' || c = '\t' || c = '\n' || c = '\r'

/-- Value of one hex digit. -/
def hexVal (c : Char) : Option ℕ :=
  if '0' ≤ c && c ≤ '9' then some (c.toNat - 48)
  else if 'a' ≤ c && c ≤ 'f' then some (c.toNat - 87)
  else if 'A' ≤ c && c ≤ 'F' then some (c.toNat - 55)
  else none

/-- JSON string body after the opening quote: content and remainder. -/
def jstrGo : List Char → Option (List Char × List Char)
  | [] => none
  | '"' :: rest => some ([], rest)
  | '\\' :: rest =>
    match rest with
    | '"' :: r => (jstrGo r).map (fun p => ('"' :: p.1, p.2))
    | '\\' :: r => (jstrGo r).map (fun p => ('\\' :: p.1, p.2))
    | '/' :: r => (jstrGo r).map (fun p => ('/' :: p.1, p.2))
    | 'b' :: r => (jstrGo r).map (fun p => ('\x08' :: p.1, p.2))
    | 'f' :: r => (jstrGo r).map (fun p => ('\x0c' :: p.1, p.2))
    | 'n' :: r => (jstrGo r).map (fun p => ('\n' :: p.1, p.2))
    | 'r' :: r => (jstrGo r).map (fun p => ('\r' :: p.1, p.2))
    | 't' :: r => (jstrGo r).map (fun p => ('\t' :: p.1, p.2))
    | 'u' :: h1 :: h2 :: h3 :: h4 :: r =>
      (hexVal h1).bind (fun a => (hexVal h2).bind (fun b =>
        (hexVal h3).bind (fun c => (hexVal h4).bind (fun d =>
          (jstrGo r).map (fun p =>
            (Char.ofNat (((a * 16 + b) * 16 + c) * 16 + d) :: p.1, p.2))))))
    | _ => none
  | c :: rest => (jstrGo rest).map (fun p => (c :: p.1, p.2))

/-- JSON number starting at `t`: strict grammar (no leading zeros, a
fraction and exponent need at least one digit). -/
def jnumber (t : List Char) : Option (PyVal × List Char) :=
  let neg := startsL (['-']) t
  let t1 := if neg then t.drop 1 else t
  let ids := t1.takeWhile isDigitC
  if ids = [] then none
  else if 2 ≤ ids.length && startsL (['0']) ids then none
  else
    let sign : ℤ := if neg then -1 else 1
    let r1 := t1.drop ids.length
    let fds := match r1 with
      | '.' :: r2 => some (r2.takeWhile isDigitC)
      | _ => none
    match fds with
    | some [] => none
    | _ =>
      let mant := ids ++ (fds.getD [])
      let r2 := match fds with
        | some f => r1.drop (f.length + 1)
        | none => r1
      let epart : Option (Option ℤ × List Char) := match r2 with
        | 'e' :: r3 => some (none, r3)
        | 'E' :: r3 => some (none, r3)
        | _ => none
      match epart with
      | none =>
        match fds with
        | none => some (.vint (sign * (digitsToNat ids : ℤ)), r1)
        | some f =>
          some (.vdec (sign * (digitsToNat mant : ℤ)) (-(f.length : ℤ)), r2)
      | some (_, r3) =>
        let eneg := startsL (['-']) r3
        let r4 := if startsL (['-']) r3 || startsL (['+']) r3
                  then r3.drop 1 else r3
        let eds := r4.takeWhile isDigitC
        if eds = [] then none
        else
          let ev : ℤ := (if eneg then -1 else 1) * (digitsToNat eds : ℤ)
          some (.vdec (sign * (digitsToNat mant : ℤ))
                  (ev - ((fds.getD []).length : ℤ)),
                r4.drop eds.length)

/-- Parsing modes of the fuelled JSON reader: one value, the items of an
array after its first element, the members of an object. -/
inductive JMode where
  | jv
  | ja (acc : List PyVal)
  | jo (acc : List (List Char × PyVal))

/-- Skip JSON whitespace. -/
def jskip (t : List Char) : List Char :=
  t.dropWhile jIsWs

/-- Fuelled JSON reader; every recursive call consumes at least one
character, so fuel `|input| + 2` never runs out on accepted input. -/
def jrun : ℕ → JMode → List Char → Option (PyVal × List Char)
  | 0, _, _ => none
  | f + 1, JMode.jv, t =>
    match t with
    | [] => none
    | c :: rest =>
      if jIsWs c then jrun f JMode.jv rest
      else if c = '"' then (jstrGo rest).map (fun p => (.vstr p.1, p.2))
      else if c = '[' then
        match jskip rest with
        | ']' :: r2 => some (.vlist [], r2)
        | _ => jrun f (JMode.ja []) rest
      else if c = Char.ofNat 123 then
        match jskip rest with
        | r0 :: r2 =>
          if r0 = Char.ofNat 125 then some (.vdict [], r2)
          else jrun f (JMode.jo []) rest
        | [] => jrun f (JMode.jo []) rest
      else if c = 't' then
        (dropPref ("rue".data) rest).map (fun r => (.vbool true, r))
      else if c = 'f' then
        (dropPref ("alse".data) rest).map (fun r => (.vbool false, r))
      else if c = 'n' then
        (dropPref ("ull".data) rest).map (fun r => (.vnull, r))
      else jnumber (c :: rest)
  | f + 1, JMode.ja acc, t =>
    match jrun f JMode.jv t with
    | none => none
    | some (v, r) =>
      match jskip r with
      | ']' :: r2 => some (.vlist (acc ++ [v]), r2)
      | ',' :: r2 => jrun f (JMode.ja (acc ++ [v])) r2
      | _ => none
  | f + 1, JMode.jo acc, t =>
    match jskip t with
    | '"' :: r1 =>
      match jstrGo r1 with
      | none => none
      | some (k, r2) =>
        match jskip r2 with
        | ':' :: r3 =>
          match jrun f JMode.jv r3 with
          | none => none
          | some (v, r4) =>
            match jskip r4 with
            | r0 :: r5 =>
              if r0 = Char.ofNat 125 then some (.vdict (acc ++ [(k, v)]), r5)
              else if r0 = ',' then jrun f (JMode.jo (acc ++ [(k, v)])) r5
              else none
            | [] => none
        | _ => none
    | _ => none

/-- The strict top level of `json.loads`: one value, then only trailing
whitespace. -/
def json_loads (t : List Char) : Option PyVal :=
  match jrun (t.length + 2) JMode.jv t with
  | none => none
  | some (v, r) => if jskip r = [] then some v else none

/-! ## Tab-2 Websearch payload unwrapping (lines 580-651) -/

/-- Python `s.replace(needle, "")`, fuelled worker (left-to-right,
non-overlapping). -/
def replaceAllF (needle : List Char) : ℕ → List Char → List Char
  | 0, t => t
  | _ + 1, [] => []
  | f + 1, c :: rest =>
    match dropPref needle (c :: rest) with
    | some r => replaceAllF needle f r
    | none => c :: replaceAllF needle f rest

/-- Python `s.replace(needle, "")` for non-empty `needle`. -/
def replaceAll (needle t : List Char) : List Char :=
  replaceAllF needle (t.length + 1) t

/-- Opening and closing braces, written by code point. -/
def lbrace : Char := Char.ofNat 123

/-- The code-fence scrub at lines 610 and 634:
`s.replace("```json", "").replace("```", "").strip()`. -/
def stripFences (s : List Char) : List Char :=
  pyStrip (replaceAll ("```".data) (replaceAll ("```json".data) s))

/-- The Websearch result object: `raw` payload, `answer_text`, sources. -/
structure WebResult where
  raw : PyVal
  answer_text : PyVal
  sources : List PyVal

/-- Lines 586-604: decode `raw` (a string is put through `json.loads`, a
dict is taken as is) and pull `summary`/`bullets` with falsy fallbacks
(`.get(..., d) or d`; for bullets `or []`). -/
def tab2Stage1 (raw : PyVal) : PyVal × PyVal :=
  let parsed : Option PyVal :=
    match raw with
    | .vstr s => json_loads s
    | .vdict _ => some raw
    | _ => none
  match parsed with
  | some (.vdict d) =>
    (pyOr ((dictGet ("summary".data) d).getD (.vstr [])) (.vstr []),
     pyOr ((dictGet ("bullets".data) d).getD (.vlist [])) (.vlist []))
  | _ => (.vstr [], .vlist [])

/-- Lines 607-618: when the summary is a string that, after stripping
fences, looks like an encoded object, attempt a second decode pass; any
failure (decode error or a non-dict result, whose `.get` raises inside
the `try`) leaves summary and bullets unchanged. -/
def tab2Stage2 (p : PyVal × PyVal) : PyVal × PyVal :=
  match p.1 with
  | .vstr s =>
    let cand0 := pyStrip s
    let cand := if containsSub ("```".data) cand0 then stripFences cand0 else cand0
    if startsL ([lbrace]) cand then
      match json_loads cand with
      | some (.vdict nd) =>
        (pyOr ((dictGet ("summary".data) nd).getD (.vstr [])) (.vstr []),
         pyOr ((dictGet ("bullets".data) nd).getD (.vlist [])) p.2)
      | _ => p
    else p
  | _ => p

/-- Lines 621-628: when both summary and bullets are falsy, try
`answer_text` as one more encoded object; failures leave them unchanged. -/
def tab2Stage3 (answer_text : PyVal) (p : PyVal × PyVal) : PyVal × PyVal :=
  if !(pyTruthy p.1) && !(pyTruthy p.2) then
    match answer_text with
    | .vstr a =>
      match json_loads a with
      | some (.vdict nd) =>
        (pyOr ((dictGet ("summary".data) nd).getD (.vstr [])) p.1,
         pyOr ((dictGet ("bullets".data) nd).getD (.vlist [])) p.2)
      | _ => p
    | _ => p
  else p

/-- The whole tolerant unwrapping of the Websearch payload: the summary
and bullets values the renderer receives. -/
def tab2Extract (raw answer_text : PyVal) : PyVal × PyVal :=
  tab2Stage3 answer_text (tab2Stage2 (tab2Stage1 raw))

/-- Line 650: the explicit nothing-extractable fallback notice is shown
exactly when both summary and bullets are falsy after unwrapping. -/
def tab2NoticeShown (raw answer_text : PyVal) : Bool :=
  !(pyTruthy (tab2Extract raw answer_text).1) &&
  !(pyTruthy (tab2Extract raw answer_text).2)

/-- Lines 631-637: the display cleaning applied to a truthy string
summary before `st.markdown` (fence scrub, symmetric quote peel). -/
def summaryDisplay (s : List Char) : List Char :=
  let c0 := pyStrip s
  let c1 := if containsSub ("```".data) c0 then stripFences c0 else c0
  if startsL (['"']) c1 && startsL (['"']) c1.reverse then
    (c1.drop 1).dropLast
  else c1

/-! ## build_final_strategy marker split (src/final_strategy_agent.py 118-138) -/

/-- The literal SWOT start marker. -/
def SWOT_START : List Char := ("<!--SWOT_START-->".data)

/-- The literal SWOT end marker. -/
def SWOT_END : List Char := ("<!--SWOT_END-->".data)

/-- The structured result of `build_final_strategy`. -/
structure FinalResult where
  main_text : List Char
  swot_text : List Char
deriving DecidableEq, Repr

/-- Lines 121-127: when both markers occur in the full text, unpack the
two `split(marker, 1)` calls.  The second unpacking raises `ValueError`
when no end marker follows the first start marker; that exception is
modelled as `none`. -/
def buildSplit (full_text : List Char) : Option (List Char × List Char) :=
  if containsSub SWOT_START full_text && containsSub SWOT_END full_text then
    match pySplit1 SWOT_START full_text with
    | none => none
    | some (pre, rest) =>
      match pySplit1 SWOT_END rest with
      | none => none
      | some (sp, _post) => some (pyStrip pre, pyStrip sp)
  else some (full_text, [])

/-- `build_final_strategy` from the stripped gateway response text to the
returned record (line 118 strips the raw completion content first). -/
def build_final_strategy_split (content : List Char) : Option FinalResult :=
  (buildSplit (pyStrip content)).map (fun p => ⟨p.1, p.2⟩)

/-- Modelled from the spec claim wording: the stripped text before the
first SWOT start marker. -/
def specMainText (t : List Char) : List Char :=
  pyStrip (((pySplit1 SWOT_START t).map Prod.fst).getD t)

/-- Modelled from the spec claim wording: the stripped text between the
first SWOT start marker and the first end marker after it. -/
def specSwotText (t : List Char) : List Char :=
  pyStrip (((pySplit1 SWOT_START t).bind
    (fun p => (pySplit1 SWOT_END p.2).map Prod.fst)).getD [])

/-! ## The per-session orchestration state machine

Embeds the session-state slots of src/streamlit_app.py that the
start-analysis blocks (lines 460-487 and 522-549), the reconciliation
poll `_poll_pending_agents` (lines 293-334) and the tab-4 auto-trigger
(lines 920-951) read and write. -/

/-- The zero-wait observation of one background future at a poll:
`fut.result(timeout=0)` returns a value, raises
`concurrent.futures.TimeoutError` (still running), or raises the task's
own exception. -/
inductive FutOutcome (ρ : Type) where
  | ready (r : ρ)
  | notYet
  | failed

/-- One background agent's session entries: the tracked pending handle
(`_pending_*_future`), its start timestamp (`_pending_*_future_start`),
the result slot and the unavailable flag. -/
structure AgentSlot (ρ : Type) where
  pending : Bool
  start : Option ℤ
  result : Option ρ
  unavailable : Bool

/-- One iteration of the `_poll_pending_agents` loop body for one tracked
key (lines 299-327): absent handle is skipped; elapsed time beyond
timeout plus the 5 s grace marks the slot unavailable and drops the
handle; otherwise a zero-wait readiness check commits the result and
clears the unavailable flag, a still-running future leaves the slot
untouched, and a failed future is recorded like a timeout. -/
def pollSlot {ρ : Type} (timeout now : ℤ) (out : FutOutcome ρ)
    (sl : AgentSlot ρ) : AgentSlot ρ :=
  if sl.pending = false then sl
  else if timeout + 5 < now - sl.start.getD 0 then
    { pending := false, start := none, result := none, unavailable := true }
  else
    match out with
    | .ready r =>
      { pending := false, start := none, result := some r, unavailable := false }
    | .notYet => sl
    | .failed =>
      { pending := false, start := none, result := none, unavailable := true }

/-- `WEBSEARCH_TIMEOUT` (line 23). -/
def WEBSEARCH_TIMEOUT : ℤ := 60

/-- `FUTURE_AGENT_TIMEOUT` (line 24). -/
def FUTURE_AGENT_TIMEOUT : ℤ := 90

/-- The Future-agent result object (`future_chat`). -/
structure FutResult where
  fr_answer_text : List Char

/-- The tuple returned by `_run_rag_task` (lines 28-39): answer, docs,
top sources, error message. -/
structure RagTuple where
  answer : List Char
  docs : List (List Char)
  tops : List (List Char)
  err : Option (List Char)

/-- The session state touched by the claims: the RAG answer slot, the
two background agent slots, the FinalStrategy slot, the surfaced error
messages, a count of FinalStrategy gateway invocations and a log of the
underlying calls submitted to the worker pool. -/
structure SessionState where
  lastAnswer : List Char
  web : AgentSlot WebResult
  fut : AgentSlot FutResult
  finalResult : Option FinalResult
  errors : List (List Char)
  finalCalls : ℕ
  launched : List (List Char)

/-- The freshly initialised session (lines 279-290): no results, both
unavailable flags `False`, nothing pending. -/
def initSession : SessionState :=
  ⟨[], ⟨false, none, none, false⟩, ⟨false, none, none, false⟩,
   none, [], 0, []⟩

/-- `_poll_pending_agents` (lines 293-334): one reconciliation pass over
both tracked keys at wall time `now` with the two observed outcomes. -/
def pollPending (now : ℤ) (webOut : FutOutcome WebResult)
    (futOut : FutOutcome FutResult) (s : SessionState) : SessionState :=
  { s with
    web := pollSlot WEBSEARCH_TIMEOUT now webOut s.web,
    fut := pollSlot FUTURE_AGENT_TIMEOUT now futOut s.fut }

/-- The primary-call outcome of `f_rag.result(timeout=120)`: exceeding
the 120 s deadline raises `concurrent.futures.TimeoutError`, otherwise
the task's own outcome is returned (the task catches its exceptions and
reports them in the tuple's error field). -/
def ragOutcome (duration : ℤ) (res : Except (List Char) RagTuple) :
    Except (List Char) RagTuple :=
  if 120 < duration then Except.error ("TimeoutError".data) else res

/-- The analysis block run on approval (lines 460-487, identically
522-549): three tasks are submitted to the pool, the primary is awaited
up to 120 s.  On a primary exception or deadline overrun the generic
failure is surfaced and the handler returns: no pending handles and no
start timestamps are registered, though the submitted calls keep
running.  Otherwise the RAG slot is committed (when the task reported an
answer and no error) and both secondary handles are registered as
pending with start timestamp `now`. -/
def analysisStep (now duration : ℤ) (res : Except (List Char) RagTuple)
    (s : SessionState) : SessionState :=
  let s0 := { s with launched := s.launched ++ [("web_search".data), ("future_chat".data)] }
  match ragOutcome duration res with
  | Except.error e =>
    { s0 with errors := s0.errors ++ [("Ошибка: ".data) ++ e] }
  | Except.ok rag =>
    let s1 :=
      match rag.err with
      | some e => { s0 with errors := s0.errors ++ [("Ошибка RAG: ".data) ++ e] }
      | none =>
        if rag.answer ≠ [] then { s0 with lastAnswer := rag.answer } else s0
    { s1 with
      web := { pending := true, start := some now,
               result := s1.web.result, unavailable := s1.web.unavailable },
      fut := { pending := true, start := some now,
               result := s1.fut.result, unavailable := s1.fut.unavailable } }

/-- The approve buttons (lines 437-442 and 510-515) reset both
unavailable flags before a new analysis. -/
def approveStep (s : SessionState) : SessionState :=
  { s with
    web := { s.web with unavailable := false },
    fut := { s.fut with unavailable := false } }

/-- The tab-4 auto-trigger (lines 920-951): when the FinalStrategy slot
is populated nothing happens; otherwise, exactly when the RAG answer is
truthy and both background result slots are non-None, the FinalStrategy
gateway is invoked (counted in `finalCalls`) and its result committed —
a gateway exception (`build = none`) only surfaces an error. -/
def tab4Step (build : Option FinalResult) (s : SessionState) : SessionState :=
  match s.finalResult with
  | some _ => s
  | none =>
    if s.lastAnswer ≠ [] ∧ s.web.result.isSome ∧ s.fut.result.isSome then
      match build with
      | some r => { s with finalResult := some r, finalCalls := s.finalCalls + 1 }
      | none =>
        { s with errors := s.errors ++ [("Ошибка при формировании стратегий".data)],
                 finalCalls := s.finalCalls + 1 }
    else s

/-- The session events of one host request/render cycle that touch the
modelled state. -/
inductive Ev where
  | poll (now : ℤ) (webOut : FutOutcome WebResult) (futOut : FutOutcome FutResult)
  | approve
  | analysis (now duration : ℤ) (res : Except (List Char) RagTuple)
  | tab4 (build : Option FinalResult)

/-- One event step. -/
def stepEv (e : Ev) (s : SessionState) : SessionState :=
  match e with
  | .poll now w f => pollPending now w f s
  | .approve => approveStep s
  | .analysis now d res => analysisStep now d res s
  | .tab4 build => tab4Step build s

/-- A sequence of events. -/
def runEvents (es : List Ev) (s : SessionState) : SessionState :=
  es.foldl (fun s e => stepEv e s) s

/-! ## Shared lemmas -/

theorem dropPref_some {p t r : List Char} (h : dropPref p t = some r) :
    t = p ++ r := by
  induction p generalizing t with
  | nil => simpa [dropPref] using h
  | cons c ps ih =>
    cases t with
    | nil => simp [dropPref] at h
    | cons c' ts =>
      by_cases hc : c' = c
      · subst hc
        simp only [dropPref, if_pos rfl] at h
        simpa using ih h
      · simp [dropPref, hc] at h

theorem dropPref_append (p r : List Char) : dropPref p (p ++ r) = some r := by
  induction p with
  | nil => rfl
  | cons c ps ih => simp [dropPref, ih]

theorem pySplit1_some_decomp {sep t a b : List Char}
    (h : pySplit1 sep t = some (a, b)) : t = a ++ sep ++ b := by
  induction t generalizing a with
  | nil => simp [pySplit1] at h
  | cons c rest ih =>
    rw [pySplit1] at h
    cases hd : dropPref sep (c :: rest) with
    | some r =>
      rw [hd] at h
      obtain ⟨rfl, rfl⟩ : a = [] ∧ r = b := by
        simpa using h
      simpa using dropPref_some hd
    | none =>
      rw [hd] at h
      cases hs : pySplit1 sep rest with
      | none => rw [hs] at h; simp at h
      | some p =>
        rw [hs] at h
        obtain ⟨a', b'⟩ := p
        obtain ⟨ha, rfl⟩ : c :: a' = a ∧ b' = b := by
          simpa using h
        subst ha
        have := ih hs
        simp [this]

theorem pySplit1_isSome_cons {sep l : List Char} {c : Char}
    (h : (pySplit1 sep l).isSome = true) :
    (pySplit1 sep (c :: l)).isSome = true := by
  rw [pySplit1]
  cases hd : dropPref sep (c :: l) with
  | some r => simp
  | none =>
    cases hs : pySplit1 sep l with
    | none => rw [hs] at h; simp at h
    | some p => simp

theorem containsSub_append_right {n b : List Char} (a : List Char)
    (h : containsSub n b = true) : containsSub n (a ++ b) = true := by
  induction a with
  | nil => simpa using h
  | cons c a' ih => exact pySplit1_isSome_cons ih

/-! ## Claim C4: reconciliation resolves each handle exactly once -/

/-- Claim C4: on a reconciliation pass, a tracked Websearch handle whose
elapsed time exceeds timeout (60 s) plus grace (5 s) = 65 s is marked
unavailable with its tracking removed; a tracked handle observed ready
at elapsed time at most 65 s is committed as Ready with the unavailable
flag cleared; a handle that is not tracked (already resolved) is never
changed again, so each handle reaches a terminal state at most once and
a handle committed Ready is never later marked TimedOut. -/
theorem C4_reconcile_once :
    (∀ (sl : AgentSlot WebResult) (now : ℤ) (out : FutOutcome WebResult),
      sl.pending = true → 65 < now - sl.start.getD 0 →
      pollSlot WEBSEARCH_TIMEOUT now out sl =
        ⟨false, none, none, true⟩) ∧
    (∀ (sl : AgentSlot WebResult) (now : ℤ) (r : WebResult),
      sl.pending = true → now - sl.start.getD 0 ≤ 65 →
      pollSlot WEBSEARCH_TIMEOUT now (.ready r) sl =
        ⟨false, none, some r, false⟩) ∧
    (∀ (sl : AgentSlot WebResult) (now : ℤ) (out : FutOutcome WebResult),
      sl.pending = false → pollSlot WEBSEARCH_TIMEOUT now out sl = sl) ∧
    (∀ (sl : AgentSlot WebResult) (now : ℤ) (out : FutOutcome WebResult),
      (pollSlot WEBSEARCH_TIMEOUT now out sl).pending = false ∨
      pollSlot WEBSEARCH_TIMEOUT now out sl = sl) := by
  refine ⟨?_, ?_, ?_, ?_⟩
  · intro sl now out hp he
    unfold pollSlot
    rw [hp]
    simp only [WEBSEARCH_TIMEOUT]
    rw [if_neg (by simp), if_pos (by omega)]
  · intro sl now r hp he
    unfold pollSlot
    rw [hp]
    simp only [WEBSEARCH_TIMEOUT]
    rw [if_neg (by simp), if_neg (by omega)]
  · intro sl now out hp
    unfold pollSlot
    rw [if_pos hp]
  · intro sl now out
    unfold pollSlot
    by_cases hp : sl.pending = false
    · right; rw [if_pos hp]
    · rw [if_neg hp]
      by_cases ht : WEBSEARCH_TIMEOUT + 5 < now - sl.start.getD 0
      · left; rw [if_pos ht]
      · rw [if_neg ht]
        cases out with
        | ready r => left; rfl
        | notYet => right; rfl
        | failed => left; rfl

/-- A sample Websearch result value used by concrete witnesses. -/
def wSample : WebResult := ⟨PyVal.vnull, PyVal.vnull, []⟩

/-- Witness for C4 at concrete inputs: a handle started at 0 polled at
66 s times out; polled ready at 64 s it is committed; and a second poll
of the committed slot changes nothing. -/
theorem C4_reconcile_once_witness :
    pollSlot WEBSEARCH_TIMEOUT 66 (FutOutcome.notYet (ρ := WebResult))
      ⟨true, some 0, none, false⟩ = ⟨false, none, none, true⟩ ∧
    pollSlot WEBSEARCH_TIMEOUT 64 (FutOutcome.ready wSample)
      ⟨true, some 0, none, false⟩ =
      ⟨false, none, some wSample, false⟩ ∧
    pollSlot WEBSEARCH_TIMEOUT 200 (FutOutcome.notYet (ρ := WebResult))
      ⟨false, none, some wSample, false⟩ =
      ⟨false, none, some wSample, false⟩ := by
  refine ⟨?_, ?_, ?_⟩
  · exact C4_reconcile_once.1 (⟨true, some 0, none, false⟩ : AgentSlot WebResult) 66 _ rfl (by norm_num)
  · exact C4_reconcile_once.2.1 (⟨true, some 0, none, false⟩ : AgentSlot WebResult) 64 wSample rfl
      (by norm_num)
  · exact C4_reconcile_once.2.2.1
      (⟨false, none, some wSample, false⟩ : AgentSlot WebResult) 200 _ rfl

/-! ## Claim C6: a primary failure leaves the secondary handles untracked -/

/-- Claim C6: when the primary RAG call of the analysis block raises or
exceeds its 120 s deadline, a generic failure is surfaced and the block
returns without registering the Websearch and Forecast handles: no
pending-handle or start-timestamp entries are written, while the two
submitted underlying calls remain running (abandonment). -/
theorem C6_primary_failure_orphans :
    (∀ (d : ℤ) (res : Except (List Char) RagTuple),
      120 < d → ragOutcome d res = Except.error (("TimeoutError".data))) ∧
    (∀ (s : SessionState) (now d : ℤ) (res : Except (List Char) RagTuple)
        (msg : List Char),
      ragOutcome d res = Except.error msg →
      (analysisStep now d res s).web = s.web ∧
      (analysisStep now d res s).fut = s.fut ∧
      (analysisStep now d res s).lastAnswer = s.lastAnswer ∧
      (analysisStep now d res s).finalResult = s.finalResult ∧
      (analysisStep now d res s).errors = s.errors ++ [("Ошибка: ".data) ++ msg] ∧
      (analysisStep now d res s).launched =
        s.launched ++ [("web_search".data), ("future_chat".data)]) := by
  constructor
  · intro d res hd
    unfold ragOutcome
    rw [if_pos hd]
  · intro s now d res msg h
    unfold analysisStep
    rw [h]
    exact ⟨rfl, rfl, rfl, rfl, rfl, rfl⟩

/-- Witness for C6: a primary call that takes 121 s on the fresh session
surfaces the timeout and registers nothing. -/
theorem C6_primary_failure_orphans_witness :
    ragOutcome 121 (Except.ok ⟨[], [], [], none⟩) =
      Except.error (("TimeoutError".data)) ∧
    (analysisStep 0 121 (Except.ok ⟨[], [], [], none⟩) initSession).web =
      initSession.web ∧
    (analysisStep 0 121 (Except.ok ⟨[], [], [], none⟩) initSession).fut =
      initSession.fut ∧
    (analysisStep 0 121 (Except.ok ⟨[], [], [], none⟩) initSession).errors =
      initSession.errors ++ [("Ошибка: ".data) ++ ("TimeoutError".data)] := by
  have h1 := C6_primary_failure_orphans.1 121 (Except.ok ⟨[], [], [], none⟩)
    (by norm_num)
  have h2 := C6_primary_failure_orphans.2 initSession 0 121
    (Except.ok ⟨[], [], [], none⟩) (("TimeoutError".data)) h1
  exact ⟨h1, h2.1, h2.2.1, h2.2.2.2.2.1⟩

/-! ## Claim C10: the marker split of build_final_strategy -/

/-- The counterexample text for C10: both markers occur, but the end
marker only before the first start marker. -/
def c10cex : List Char := ("A<!--SWOT_END-->B<!--SWOT_START-->C".data)

/-- Counterexample to C10 as stated: this gateway response contains both
markers, yet `build_final_strategy` does not return the split texts — the
second one-argument unpacking raises `ValueError` (modelled as `none`),
so `main_text` is not the stripped text before the first start marker. -/
theorem C10_counterexample :
    containsSub SWOT_START c10cex = true ∧
    containsSub SWOT_END c10cex = true ∧
    build_final_strategy_split c10cex = none := by
  exact ⟨rfl, rfl, rfl⟩

/-- Claim C10 (amended): when the text after the first SWOT start marker
contains an end marker, `build_final_strategy` returns `main_text` equal
to the stripped text before the first start marker and `swot_text` equal
to the stripped text between the start marker and the following end
marker; everything after that end marker is discarded.  (When both
markers occur but no end marker follows the first start marker, the
split raises instead.) -/
theorem C10_marker_split (t pre rest mid post : List Char)
    (h1 : pySplit1 SWOT_START (pyStrip t) = some (pre, rest))
    (h2 : pySplit1 SWOT_END rest = some (mid, post)) :
    build_final_strategy_split t = some ⟨pyStrip pre, pyStrip mid⟩ ∧
    build_final_strategy_split t =
      some ⟨specMainText (pyStrip t), specSwotText (pyStrip t)⟩ := by
  have hcS : containsSub SWOT_START (pyStrip t) = true := by
    unfold containsSub
    rw [h1]; rfl
  have hcE : containsSub SWOT_END (pyStrip t) = true := by
    have hrest : containsSub SWOT_END rest = true := by
      unfold containsSub
      rw [h2]; rfl
    have hdec := pySplit1_some_decomp h1
    rw [hdec, List.append_assoc]
    exact containsSub_append_right pre
      (containsSub_append_right SWOT_START hrest)
  have hb : buildSplit (pyStrip t) = some (pyStrip pre, pyStrip mid) := by
    unfold buildSplit
    rw [if_pos (by rw [hcS, hcE]; rfl), h1]
    dsimp only
    rw [h2]
  constructor
  · unfold build_final_strategy_split
    rw [hb]; rfl
  · unfold build_final_strategy_split
    rw [hb]
    unfold specMainText specSwotText
    rw [h1]
    simp only [Option.map_some', Option.some_bind, Option.getD_some]
    rw [h2]
    rfl

/-- Witness for C10 at a concrete well-formed response: the prefix
becomes `main_text`, the middle becomes `swot_text`, and the tail after
the end marker appears in neither. -/
theorem C10_marker_split_witness :
    build_final_strategy_split
      (("Основной текст<!--SWOT_START--> SWOT часть <!--SWOT_END-->хвост".data)) =
      some ⟨("Основной текст".data), ("SWOT часть".data)⟩ := by
  have h := C10_marker_split
    (("Основной текст<!--SWOT_START--> SWOT часть <!--SWOT_END-->хвост".data))
    (("Основной текст".data)) ((" SWOT часть <!--SWOT_END-->хвост".data))
    ((" SWOT часть ".data)) (("хвост".data)) rfl rfl
  exact h.1

/-! ## Claim C1: the FinalStrategy slot triggers once, and only when ready -/

theorem analysisStep_finalResult (now d : ℤ) (res : Except (List Char) RagTuple)
    (s : SessionState) :
    (analysisStep now d res s).finalResult = s.finalResult ∧
    (analysisStep now d res s).finalCalls = s.finalCalls := by
  unfold analysisStep
  rcases hr : ragOutcome d res with e | rag
  · exact ⟨rfl, rfl⟩
  · rcases he : rag.err with _ | e
    · by_cases ha : rag.answer ≠ [] <;> simp [he, ha]
    · simp [he]

theorem stepEv_final_some {e : Ev} {s : SessionState} {r : FinalResult}
    (h : s.finalResult = some r) :
    (stepEv e s).finalResult = some r ∧ (stepEv e s).finalCalls = s.finalCalls := by
  cases e with
  | poll now w f => exact ⟨h, rfl⟩
  | approve => exact ⟨h, rfl⟩
  | analysis now d res =>
    have := analysisStep_finalResult now d res s
    exact ⟨this.1.trans h, this.2⟩
  | tab4 build =>
    refine ⟨?_, ?_⟩
    · show (tab4Step build s).finalResult = some r
      unfold tab4Step
      rw [h]
      exact h
    · show (tab4Step build s).finalCalls = s.finalCalls
      unfold tab4Step
      rw [h]

/-- The slot-consistency invariant: a Some result in a background slot
always goes with a cleared unavailable flag. -/
def slotInv (s : SessionState) : Prop :=
  (s.web.result.isSome = true → s.web.unavailable = false) ∧
  (s.fut.result.isSome = true → s.fut.unavailable = false)

theorem pollSlot_inv {ρ : Type} (timeout now : ℤ) (out : FutOutcome ρ)
    (sl : AgentSlot ρ) (h : sl.result.isSome = true → sl.unavailable = false) :
    (pollSlot timeout now out sl).result.isSome = true →
    (pollSlot timeout now out sl).unavailable = false := by
  unfold pollSlot
  by_cases hp : sl.pending = false
  · rw [if_pos hp]; exact h
  · rw [if_neg hp]
    by_cases ht : timeout + 5 < now - sl.start.getD 0
    · rw [if_pos ht]; intro hh; simp at hh
    · rw [if_neg ht]
      cases out with
      | ready r => intro _; rfl
      | notYet => exact h
      | failed => intro hh; simp at hh

theorem analysisStep_slots (now d : ℤ) (res : Except (List Char) RagTuple)
    (s : SessionState) :
    (analysisStep now d res s).web.result = s.web.result ∧
    (analysisStep now d res s).web.unavailable = s.web.unavailable ∧
    (analysisStep now d res s).fut.result = s.fut.result ∧
    (analysisStep now d res s).fut.unavailable = s.fut.unavailable := by
  unfold analysisStep
  rcases hr : ragOutcome d res with e | rag
  · exact ⟨rfl, rfl, rfl, rfl⟩
  · rcases he : rag.err with _ | e
    · by_cases ha : rag.answer ≠ [] <;> simp [he, ha]
    · simp [he]

theorem stepEv_slotInv {e : Ev} {s : SessionState} (h : slotInv s) :
    slotInv (stepEv e s) := by
  cases e with
  | poll now w f =>
    exact ⟨pollSlot_inv _ now w s.web h.1, pollSlot_inv _ now f s.fut h.2⟩
  | approve => exact ⟨fun _ => rfl, fun _ => rfl⟩
  | analysis now d res =>
    have hs := analysisStep_slots now d res s
    show slotInv (analysisStep now d res s)
    refine ⟨fun hh => ?_, fun hh => ?_⟩
    · rw [hs.2.1]
      exact h.1 (by rw [← hs.1]; exact hh)
    · rw [hs.2.2.2]
      exact h.2 (by rw [← hs.2.2.1]; exact hh)
  | tab4 build =>
    show slotInv (tab4Step build s)
    unfold tab4Step
    rcases hf : s.finalResult with _ | r
    · dsimp only
      split
      · cases build with
        | some r => exact h
        | none => exact h
      · exact h
    · exact h

theorem runEvents_slotInv (es : List Ev) {s : SessionState} (h : slotInv s) :
    slotInv (runEvents es s) := by
  induction es generalizing s with
  | nil => exact h
  | cons e es ih => exact ih (stepEv_slotInv h)

/-- Claim C1: the FinalStrategy slot is populated by an event only when,
at that moment, the RAG answer is present and the Websearch and Forecast
slots are both non-None (and, in any state reachable from a fresh
session, a non-None background slot is also non-unavailable); once the
slot is populated, no later event sequence changes it or invokes the
FinalStrategy gateway again. -/
theorem C1_final_trigger :
    (∀ (e : Ev) (s : SessionState),
      (stepEv e s).finalResult ≠ s.finalResult →
      s.finalResult = none ∧ s.lastAnswer ≠ [] ∧
      s.web.result.isSome = true ∧ s.fut.result.isSome = true) ∧
    (∀ (s : SessionState) (r : FinalResult) (es : List Ev),
      s.finalResult = some r →
      (runEvents es s).finalResult = some r ∧
      (runEvents es s).finalCalls = s.finalCalls) ∧
    (∀ es : List Ev, slotInv (runEvents es initSession)) := by
  refine ⟨?_, ?_, ?_⟩
  · intro e s hne
    cases e with
    | poll now w f => exact absurd rfl hne
    | approve => exact absurd rfl hne
    | analysis now d res =>
      exact absurd (analysisStep_finalResult now d res s).1 hne
    | tab4 build =>
      revert hne
      show (tab4Step build s).finalResult ≠ s.finalResult → _
      unfold tab4Step
      rcases hf : s.finalResult with _ | r
      · dsimp only
        split
        · rename_i hc
          intro _
          exact ⟨rfl, hc.1, hc.2.1, hc.2.2⟩
        · intro hne
          exact absurd hf hne
      · intro hne
        exact absurd hf hne
  · intro s r es h
    induction es generalizing s with
    | nil => exact ⟨h, rfl⟩
    | cons e es ih =>
      have h1 := stepEv_final_some (e := e) h
      have h2 := ih (stepEv e s) h1.1
      exact ⟨h2.1, h2.2.trans h1.2⟩
  · intro es
    exact runEvents_slotInv es
      ⟨fun h => by simp [initSession] at h, fun h => by simp [initSession] at h⟩

/-- Sample Forecast result for concrete witnesses. -/
def fSample : FutResult := ⟨[]⟩

/-- Sample FinalStrategy result for concrete witnesses. -/
def frSample : FinalResult := ⟨("x".data), []⟩

/-- A session with all three upstream slots ready and no FinalStrategy
result yet. -/
def s1Sample : SessionState :=
  ⟨("a".data), ⟨false, none, some wSample, false⟩,
   ⟨false, none, some fSample, false⟩, none, [], 0, []⟩

/-- The same session after the FinalStrategy slot was populated. -/
def s2Sample : SessionState :=
  ⟨("a".data), ⟨false, none, some wSample, false⟩,
   ⟨false, none, some fSample, false⟩, some frSample, [], 1, []⟩

/-- Witness for C1: on a concrete session whose tab-4 render changes the
FinalStrategy slot, the three upstream slots were non-sentinel; and a
concrete later event sequence (a poll that flips the Websearch slot to
unavailable, then another tab-4 render) leaves the populated slot and
the gateway call count unchanged. -/
theorem C1_final_trigger_witness :
    (s1Sample.finalResult = none ∧ s1Sample.lastAnswer ≠ [] ∧
      s1Sample.web.result.isSome = true ∧ s1Sample.fut.result.isSome = true) ∧
    (runEvents [Ev.analysis 0 1 (Except.ok ⟨("a".data), [], [], none⟩),
        Ev.poll 100 FutOutcome.notYet FutOutcome.notYet,
        Ev.tab4 none] s2Sample).finalResult = some frSample ∧
    (runEvents [Ev.analysis 0 1 (Except.ok ⟨("a".data), [], [], none⟩),
        Ev.poll 100 FutOutcome.notYet FutOutcome.notYet,
        Ev.tab4 none] s2Sample).finalCalls = s2Sample.finalCalls := by
  refine ⟨?_, ?_⟩
  · exact C1_final_trigger.1 (Ev.tab4 (some frSample)) s1Sample
      (by
        intro hcontra
        simp [stepEv, tab4Step, s1Sample, frSample] at hcontra)
  · exact C1_final_trigger.2.1 s2Sample frSample
      [Ev.analysis 0 1 (Except.ok ⟨("a".data), [], [], none⟩),
       Ev.poll 100 FutOutcome.notYet FutOutcome.notYet,
       Ev.tab4 none] rfl

/-! ## Claim C3: the Ranker -/

theorem map_fst_enumFrom {α : Type} (n : ℕ) (l : List α) :
    (List.enumFrom n l).map Prod.fst = List.range' n l.length := by
  induction l generalizing n with
  | nil => rfl
  | cons a l ih => simp [List.enumFrom, List.range', ih]

/-- The display list of tab 4: the sorted strategy blocks enumerated
with ranks from 1. -/
def rankedStrats (l : List StratBlock) : List (ℕ × StratBlock) :=
  List.enumFrom 1 (sortStrats l)

/-- Claim C3: the Ranker sorts the strategy records by descending
Optimality-or-0 with ties broken by ascending 1-based emission index
(the insertion sort is stable), assigns ranks 1..N in that order, and
prefixes the top three titles with a tier marker; in particular
Optimality scores [7, 9, 9] at emission indices [1, 2, 3] produce
display order [2, 3, 1] with ranks exactly [1, 2, 3], the two nines
keeping relative order 2 before 3. -/
theorem C3_ranker :
    (∀ l : List StratBlock,
      (sortStrats l).Perm l ∧
      List.Sorted stratLE (sortStrats l) ∧
      (rankedStrats l).map Prod.fst = List.range' 1 l.length) ∧
    (∀ (rank : ℕ) (tr : List Char), rank ≤ 3 →
      mkTitle rank tr = cupOf rank ++ (' ' :: tr)) ∧
    (∀ (rank : ℕ) (tr : List Char), 3 < rank → mkTitle rank tr = tr) ∧
    (sortStrats [⟨7, 1, ("A".data)⟩, ⟨9, 2, ("B".data)⟩, ⟨9, 3, ("C".data)⟩] =
      [⟨9, 2, ("B".data)⟩, ⟨9, 3, ("C".data)⟩, ⟨7, 1, ("A".data)⟩]) ∧
    ((rankedStrats [⟨7, 1, ("A".data)⟩, ⟨9, 2, ("B".data)⟩,
        ⟨9, 3, ("C".data)⟩]).map (fun p => (p.1, p.2.idx)) =
      [(1, 2), (2, 3), (3, 1)]) := by
  refine ⟨?_, ?_, ?_, ?_, ?_⟩
  · intro l
    refine ⟨List.perm_insertionSort stratLE l, List.sorted_insertionSort stratLE l, ?_⟩
    rw [rankedStrats, map_fst_enumFrom,
      show (sortStrats l).length = l.length from
        (List.perm_insertionSort stratLE l).length_eq]
  · intro rank tr h
    unfold mkTitle
    rw [if_pos h]
  · intro rank tr h
    unfold mkTitle
    rw [if_neg (by omega)]
  · rfl
  · rfl

/-- Witness for C3 at concrete ranks: rank 1 receives the first tier
marker, rank 4 receives none. -/
theorem C3_ranker_witness :
    mkTitle 1 (("T".data)) = cupOf 1 ++ (' ' :: ("T".data)) ∧
    mkTitle 4 (("T".data)) = ("T".data) := by
  exact ⟨C3_ranker.2.1 1 (("T".data)) (by norm_num),
         C3_ranker.2.2.1 4 (("T".data)) (by norm_num)⟩

/-! ## Claim C5: extracted scores and the Optimality default -/

theorem matchScoreAt_digits {label : List Char} {delim : Char}
    {t ds : List Char} (h : matchScoreAt label delim t = some ds) :
    ds ≠ [] ∧ ds.all isDigitC = true := by
  unfold matchScoreAt at h
  cases hd : dropPref label t with
  | none => rw [hd] at h; simp at h
  | some r1 =>
    rw [hd] at h
    dsimp only at h
    cases hr : r1.dropWhile isPySpace with
    | nil => rw [hr] at h; simp at h
    | cons d r3 =>
      rw [hr] at h
      dsimp only at h
      by_cases hdc : d = delim
      · rw [if_pos hdc] at h
        by_cases hds : (r3.dropWhile isPySpace).takeWhile isDigitC = []
        · rw [if_pos hds] at h; simp at h
        · rw [if_neg hds] at h
          obtain rfl : (r3.dropWhile isPySpace).takeWhile isDigitC = ds := by
            simpa using h
          exact ⟨hds, List.all_takeWhile⟩
      · rw [if_neg hdc] at h; simp at h

theorem searchScore_digits {label : List Char} {delim : Char}
    {t ds : List Char} (h : searchScore label delim t = some ds) :
    ds ≠ [] ∧ ds.all isDigitC = true := by
  induction t with
  | nil => simp [searchScore] at h
  | cons c rest ih =>
    rw [searchScore] at h
    cases hm : matchScoreAt label delim (c :: rest) with
    | some ds' =>
      rw [hm] at h
      obtain rfl : ds' = ds := by simpa using h
      exact matchScoreAt_digits hm
    | none =>
      rw [hm] at h
      exact ih h

theorem extract_scores_member {b : List Char} {kv : List Char × List Char}
    (h : kv ∈ extract_scores b) :
    kv.1 ∈ CRITERIA ∧ kv.2 ≠ [] ∧ kv.2.all isDigitC = true := by
  unfold extract_scores at h
  obtain ⟨label, hl, hf⟩ := List.mem_filterMap.mp h
  cases he : searchScore label '=' b with
  | some ds =>
    rw [he] at hf
    obtain rfl : (label, ds) = kv := by simpa using hf
    exact ⟨hl, searchScore_digits he⟩
  | none =>
    rw [he] at hf
    cases hc : searchScore label ':' b with
    | some ds =>
      rw [hc] at hf
      obtain rfl : (label, ds) = kv := by simpa using hf
      exact ⟨hl, searchScore_digits hc⟩
    | none => rw [hc] at hf; simp at hf

/-- The counterexample block for C5: a block whose Optimality score is
the digit run 15. -/
def c5cex : List Char :=
  ("### Стратегия 1: X\nОценки (0-10): Оптимальность=15".data)

/-- Counterexample to C5 as stated: the score extracted for Optimality
from this strategy block has numeric value 15, which is not in [0, 10];
extraction performs no range check. -/
theorem C5_counterexample :
    lookupL OPT_LABEL (extract_scores c5cex) = some (("15".data)) ∧
    digitsToNat (("15".data)) = 15 ∧ ¬(digitsToNat (("15".data)) ≤ 10) := by
  exact ⟨rfl, rfl, by decide⟩

/-- Claim C5 (amended): every criterion score extracted from a strategy
block is a natural number given by a non-empty digit run (hence at least
0, but not necessarily at most 10), keyed by one of the five criteria;
and a strategy block with no extracted Optimality value is ranked with
Optimality 0 rather than failing. -/
theorem C5_scores_digits_and_default :
    (∀ (b : List Char) (kv : List Char × List Char),
      kv ∈ extract_scores b →
      kv.1 ∈ CRITERIA ∧ kv.2 ≠ [] ∧ kv.2.all isDigitC = true) ∧
    (∀ b : List Char,
      lookupL OPT_LABEL (extract_scores b) = none → optIntOf b = 0) := by
  constructor
  · intro b kv h
    exact extract_scores_member h
  · intro b h
    unfold optIntOf
    rw [h]
    rfl

/-- The single key-value pair the counterexample block extracts. -/
def c5kv : List Char × List Char := (("Оптимальность".data), ("15".data))

/-- Witness for C5 at concrete inputs: the single score of the
counterexample block is a digit run keyed by a criterion, and a block
with no scores line at all is ranked with Optimality 0. -/
theorem C5_scores_digits_and_default_witness :
    (c5kv.1 ∈ CRITERIA ∧ c5kv.2 ≠ [] ∧ c5kv.2.all isDigitC = true) ∧
    optIntOf (("### Стратегия 1: X\nбез оценок".data)) = 0 := by
  constructor
  · exact C5_scores_digits_and_default.1 c5cex c5kv (by decide)
  · exact C5_scores_digits_and_default.2
      (("### Стратегия 1: X\nбез оценок".data)) (by decide)

/-! ## Claim C7: the tolerant Websearch payload unwrap -/

/-- The fenced payload text of the claim:
` ```json\n{"summary":"A","bullets":["b1"]}\n``` `. -/
def fencedPayload : List Char :=
  ("```json\n\x7b\"summary\":\"A\",\"bullets\":[\"b1\"]\x7d\n```".data)

/-- Counterexample to C7 as stated: fed the fenced text as the raw
payload string, the unwrapper's only decode pass (`json.loads` on the
raw string, without fence stripping) fails, so it returns empty summary
and bullets — not summary "A" and bullets ["b1"] — and the
nothing-extractable notice is shown. -/
theorem C7_counterexample :
    tab2Extract (PyVal.vstr fencedPayload) (PyVal.vstr []) =
      (PyVal.vstr [], PyVal.vlist []) ∧
    PyVal.vstr [] ≠ PyVal.vstr (("A".data)) ∧
    tab2NoticeShown (PyVal.vstr fencedPayload) (PyVal.vstr []) = true := by
  refine ⟨rfl, by simp, rfl⟩

/-- Claim C7 (amended): the fenced text decodes to summary "A" and
bullets ["b1"] when it arrives as the summary field of the decoded raw
dict (the double-encoded case, where the unwrapper strips the fences
before its second decode pass); a raw payload string on which the decode
passes fail yields empty summary and bullets plus the explicit fallback
notice; and a summary string that carries no fences and no encoded
object is kept verbatim as plain display text. -/
theorem C7_unwrap :
    tab2Extract (PyVal.vdict [(("summary".data), PyVal.vstr fencedPayload)])
        (PyVal.vstr []) =
      (PyVal.vstr (("A".data)), PyVal.vlist [PyVal.vstr (("b1".data))]) ∧
    (∀ s a : List Char, json_loads s = none → json_loads a = none →
      tab2Extract (PyVal.vstr s) (PyVal.vstr a) =
        (PyVal.vstr [], PyVal.vlist []) ∧
      tab2NoticeShown (PyVal.vstr s) (PyVal.vstr a) = true) ∧
    (∀ s : List Char, s ≠ [] →
      containsSub ("```".data) (pyStrip s) = false →
      startsL ([lbrace]) (pyStrip s) = false →
      tab2Extract (PyVal.vdict [(("summary".data), PyVal.vstr s)])
          (PyVal.vstr []) =
        (PyVal.vstr s, PyVal.vlist [])) := by
  refine ⟨rfl, ?_, ?_⟩
  · intro s a h1 h2
    have e1 : tab2Stage1 (PyVal.vstr s) = (PyVal.vstr [], PyVal.vlist []) := by
      unfold tab2Stage1
      dsimp only
      rw [h1]
    have e2 : tab2Stage3 (PyVal.vstr a) (PyVal.vstr [], PyVal.vlist []) =
        (PyVal.vstr [], PyVal.vlist []) := by
      unfold tab2Stage3
      split
      · dsimp only
        rw [h2]
      · rfl
    have e3 : tab2Extract (PyVal.vstr s) (PyVal.vstr a) =
        (PyVal.vstr [], PyVal.vlist []) := by
      unfold tab2Extract
      rw [e1]
      exact e2
    refine ⟨e3, ?_⟩
    unfold tab2NoticeShown
    rw [e3]
    rfl
  · intro s hne h2 h3
    have hts : pyTruthy (PyVal.vstr s) = true := by
      cases s with
      | nil => exact absurd rfl hne
      | cons c cs => rfl
    have e1 : tab2Stage1 (PyVal.vdict [(("summary".data), PyVal.vstr s)]) =
        (PyVal.vstr s, PyVal.vlist []) := by
      unfold tab2Stage1
      simp [dictGet, pyOr, hts]
    have e2 : tab2Stage2 (PyVal.vstr s, PyVal.vlist []) =
        (PyVal.vstr s, PyVal.vlist []) := by
      unfold tab2Stage2
      simp [h2, h3]
    have e3 : tab2Stage3 (PyVal.vstr []) (PyVal.vstr s, PyVal.vlist []) =
        (PyVal.vstr s, PyVal.vlist []) := by
      unfold tab2Stage3
      rw [hts]
      rfl
    unfold tab2Extract
    rw [e1, e2]
    exact e3

/-- Witness for C7 at concrete inputs: a plain non-JSON raw string
yields the empty result and the notice; a plain Cyrillic summary string
is kept verbatim. -/
theorem C7_unwrap_witness :
    tab2Extract (PyVal.vstr (("not json".data))) (PyVal.vstr []) =
      (PyVal.vstr [], PyVal.vlist []) ∧
    tab2NoticeShown (PyVal.vstr (("not json".data))) (PyVal.vstr []) = true ∧
    tab2Extract (PyVal.vdict [(("summary".data), PyVal.vstr (("обзор".data)))])
        (PyVal.vstr []) =
      (PyVal.vstr (("обзор".data)), PyVal.vlist []) := by
  have h := C7_unwrap.2.1 (("not json".data)) [] rfl rfl
  exact ⟨h.1, h.2, C7_unwrap.2.2 (("обзор".data)) (by decide) rfl rfl⟩

/-! ## Claim C8: delimiter-agnostic score extraction -/

theorem isPySpace_of_digit {c : Char} (h : isDigitC c = true) :
    isPySpace c = false := by
  unfold isDigitC at h
  simp only [Bool.and_eq_true, decide_eq_true_eq] at h
  by_contra hne
  rw [Bool.not_eq_false] at hne
  unfold isPySpace at hne
  simp only [Bool.or_eq_true, decide_eq_true_eq] at hne
  rcases hne with ((((rfl | rfl) | rfl) | rfl) | rfl) | rfl <;> revert h <;> decide

theorem ne_of_digit_large {c d : Char} (h : isDigitC c = true)
    (hd : 1000 < d.toNat) : c ≠ d := by
  unfold isDigitC at h
  simp only [Bool.and_eq_true, decide_eq_true_eq] at h
  intro hcd
  subst hcd
  omega

theorem not_mem_digits {ds : List Char} {c : Char}
    (h : ds.all isDigitC = true) (hc : 1000 < c.toNat) : c ∉ ds := by
  intro hm
  exact ne_of_digit_large (List.all_eq_true.mp h c hm) hc rfl

theorem takeWhile_of_all {p : Char → Bool} {l : List Char}
    (h : l.all p = true) : l.takeWhile p = l := by
  induction l with
  | nil => rfl
  | cons c cs ih =>
    rw [List.all_cons, Bool.and_eq_true] at h
    rw [List.takeWhile_cons, if_pos h.1, ih h.2]

theorem dropWhile_space_of_digits {ds : List Char}
    (h : ds.all isDigitC = true) : ds.dropWhile isPySpace = ds := by
  cases ds with
  | nil => rfl
  | cons c cs =>
    rw [List.all_cons, Bool.and_eq_true] at h
    rw [List.dropWhile_cons, if_neg (by rw [isPySpace_of_digit h.1]; simp)]

theorem dropWhile_space_append {ws r : List Char}
    (h : ∀ c ∈ ws, isPySpace c = true) :
    List.dropWhile isPySpace (ws ++ r) = List.dropWhile isPySpace r := by
  induction ws with
  | nil => rfl
  | cons c cs ih =>
    rw [List.cons_append, List.dropWhile_cons,
      if_pos (h c (List.mem_cons_self c cs)),
      ih (fun x hx => h x (List.mem_cons_of_mem c hx))]

theorem matchScoreAt_exact {L ds ws : List Char} {delim : Char}
    (hdelim : isPySpace delim = false)
    (hws : ∀ c ∈ ws, isPySpace c = true)
    (hds : ds ≠ []) (hdig : ds.all isDigitC = true) :
    matchScoreAt L delim (L ++ delim :: (ws ++ ds)) = some ds := by
  unfold matchScoreAt
  rw [dropPref_append]
  dsimp only
  rw [List.dropWhile_cons, if_neg (by rw [hdelim]; simp)]
  dsimp only
  rw [if_pos rfl, dropWhile_space_append hws, dropWhile_space_of_digits hdig,
    takeWhile_of_all hdig]
  try dsimp only
  rw [if_neg hds]

theorem matchScoreAt_none_head {c0 c delim : Char} {lt r : List Char}
    (h : c ≠ c0) : matchScoreAt (c0 :: lt) delim (c :: r) = none := by
  unfold matchScoreAt
  rw [dropPref, if_neg h]

theorem searchScore_none_of_not_mem {c0 delim : Char} {lt t : List Char}
    (h : c0 ∉ t) : searchScore (c0 :: lt) delim t = none := by
  induction t with
  | nil => rfl
  | cons c rest ih =>
    rw [searchScore,
      matchScoreAt_none_head
        (fun hc => h (by rw [← hc]; exact List.mem_cons_self c rest))]
    exact ih (fun hm => h (List.mem_cons_of_mem c hm))

theorem searchScore_exact (c0 : Char) (lt ds ws : List Char) (delim : Char)
    (hdelim : isPySpace delim = false)
    (hws : ∀ c ∈ ws, isPySpace c = true)
    (hds : ds ≠ []) (hdig : ds.all isDigitC = true) :
    searchScore (c0 :: lt) delim ((c0 :: lt) ++ delim :: (ws ++ ds)) =
      some ds := by
  rw [List.cons_append, searchScore, ← List.cons_append,
    matchScoreAt_exact hdelim hws hds hdig]

theorem searchScore_eq_on_colon_text {c0 : Char} {lt ds : List Char}
    (hc0 : 1000 < c0.toNat) (htail : c0 ∉ lt)
    (hdig : ds.all isDigitC = true) :
    searchScore (c0 :: lt) '=' ((c0 :: lt) ++ ':' :: ' ' :: ds) = none := by
  rw [List.cons_append, searchScore]
  have hm : matchScoreAt (c0 :: lt) '=' ((c0 :: lt) ++ ':' :: ' ' :: ds) =
      none := by
    unfold matchScoreAt
    rw [dropPref_append]
    dsimp only
    rw [List.dropWhile_cons, if_neg (by simp [isPySpace])]
    dsimp only
    rw [if_neg (by decide)]
  rw [← List.cons_append, hm]
  refine searchScore_none_of_not_mem ?_
  simp only [List.mem_append, List.mem_cons, List.not_mem_nil]
  push_neg
  refine ⟨htail, ?_, ?_, not_mem_digits hdig hc0⟩
  · intro h; rw [h] at hc0; revert hc0; decide
  · intro h; rw [h] at hc0; revert hc0; decide

theorem filterMap_eq_singleton {α β : Type} (f : α → Option β)
    (xs : List α) (a : α) (y : β) (hnd : xs.Nodup) (ha : a ∈ xs)
    (hoth : ∀ b ∈ xs, b ≠ a → f b = none) (hfa : f a = some y) :
    xs.filterMap f = [y] := by
  induction xs with
  | nil => simp at ha
  | cons x xs ih =>
    rcases List.mem_cons.mp ha with rfl | hmem
    · rw [List.filterMap_cons, hfa]
      have hnil : xs.filterMap f = [] := by
        refine List.filterMap_eq_nil_iff.mpr (fun b hb => ?_)
        refine hoth b (List.mem_cons_of_mem _ hb) (fun hbe => ?_)
        exact (List.nodup_cons.mp hnd).1 (by rw [← hbe]; exact hb)
      rw [hnil]
    · have hxa : x ≠ a := fun hxe =>
        (List.nodup_cons.mp hnd).1 (by rw [hxe]; exact hmem)
      rw [List.filterMap_cons, hoth x (List.mem_cons_self x xs) hxa]
      exact ih (List.nodup_cons.mp hnd).2 hmem
        (fun b hb hbne => hoth b (List.mem_cons_of_mem _ hb) hbne)

theorem searchScore_eq_form {c0 : Char} {lt ds : List Char}
    (hds : ds ≠ []) (hdig : ds.all isDigitC = true) :
    searchScore (c0 :: lt) '=' ((c0 :: lt) ++ '=' :: ds) = some ds := by
  simpa using searchScore_exact c0 lt ds [] '=' (by decide) (by simp) hds hdig

theorem searchScore_colon_form {c0 : Char} {lt ds : List Char}
    (hds : ds ≠ []) (hdig : ds.all isDigitC = true) :
    searchScore (c0 :: lt) ':' ((c0 :: lt) ++ ':' :: ' ' :: ds) = some ds := by
  simpa using searchScore_exact c0 lt ds [' '] ':' (by decide) (by decide)
    hds hdig

theorem extract_scores_singleton (c0 : Char) (lt : List Char) {ds : List Char}
    (hmem : (c0 :: lt) ∈ CRITERIA)
    (hc0 : 1000 < c0.toNat) (htail : c0 ∉ lt)
    (hoth : ∀ L' ∈ CRITERIA, L' ≠ c0 :: lt →
      L' ≠ [] ∧ 1000 < (L'.headD ' ').toNat ∧ L'.headD ' ' ∉ (c0 :: lt))
    (hds : ds ≠ []) (hdig : ds.all isDigitC = true) :
    extract_scores ((c0 :: lt) ++ '=' :: ds) = [(c0 :: lt, ds)] ∧
    extract_scores ((c0 :: lt) ++ ':' :: ' ' :: ds) = [(c0 :: lt, ds)] := by
  have hnd : CRITERIA.Nodup := by decide
  constructor
  · refine filterMap_eq_singleton _ CRITERIA (c0 :: lt) ((c0 :: lt), ds)
      hnd hmem ?_ ?_
    · intro L' hL' hne
      obtain ⟨hn, hv, hm⟩ := hoth L' hL' hne
      obtain ⟨c1, lt1, rfl⟩ : ∃ c1 lt1, L' = c1 :: lt1 := by
        cases L' with
        | nil => exact absurd rfl hn
        | cons c1 lt1 => exact ⟨c1, lt1, rfl⟩
      have hv1 : 1000 < c1.toNat := by simpa using hv
      have hm1 : c1 ∉ (c0 :: lt) := by simpa using hm
      have hnotin : c1 ∉ (c0 :: lt) ++ '=' :: ds := by
        intro hmm
        rcases List.mem_append.mp hmm with h | h
        · exact hm1 h
        · rcases List.mem_cons.mp h with rfl | h
          · revert hv1; decide
          · exact not_mem_digits hdig hv1 h
      rw [searchScore_none_of_not_mem hnotin,
        searchScore_none_of_not_mem hnotin]
    · rw [searchScore_eq_form hds hdig]
  · refine filterMap_eq_singleton _ CRITERIA (c0 :: lt) ((c0 :: lt), ds)
      hnd hmem ?_ ?_
    · intro L' hL' hne
      obtain ⟨hn, hv, hm⟩ := hoth L' hL' hne
      obtain ⟨c1, lt1, rfl⟩ : ∃ c1 lt1, L' = c1 :: lt1 := by
        cases L' with
        | nil => exact absurd rfl hn
        | cons c1 lt1 => exact ⟨c1, lt1, rfl⟩
      have hv1 : 1000 < c1.toNat := by simpa using hv
      have hm1 : c1 ∉ (c0 :: lt) := by simpa using hm
      have hnotin : c1 ∉ (c0 :: lt) ++ ':' :: ' ' :: ds := by
        intro hmm
        rcases List.mem_append.mp hmm with h | h
        · exact hm1 h
        · rcases List.mem_cons.mp h with rfl | h
          · revert hv1; decide
          · rcases List.mem_cons.mp h with rfl | h
            · revert hv1; decide
            · exact not_mem_digits hdig hv1 h
      rw [searchScore_none_of_not_mem hnotin,
        searchScore_none_of_not_mem hnotin]
    · rw [searchScore_eq_on_colon_text hc0 htail hdig,
        searchScore_colon_form hds hdig]

theorem digitChar_digit (d : ℕ) : isDigitC (digitChar d) = true := by
  unfold digitChar
  split_ifs <;> decide

theorem natDigitsAux_all (f : ℕ) : ∀ n, (natDigitsAux f n).all isDigitC = true := by
  induction f with
  | zero => intro n; rfl
  | succ f ih =>
    intro n
    rw [natDigitsAux]
    by_cases h : n < 10
    · rw [if_pos h]
      simp [digitChar_digit]
    · rw [if_neg h]
      simp [List.all_append, ih, digitChar_digit]

theorem natDigits_all (n : ℕ) : (natDigits n).all isDigitC = true :=
  natDigitsAux_all (n + 1) n

theorem natDigits_ne_nil (n : ℕ) : natDigits n ≠ [] := by
  unfold natDigits natDigitsAux
  by_cases h : n < 10
  · rw [if_pos h]; simp
  · rw [if_neg h]; simp

/-- Claim C8: score extraction is delimiter-agnostic per criterion — for
every criterion label and every natural value, a scores line of the form
`label=value` and one of the form `label: value` yield the identical
singleton score map, and every criterion found in neither form is
omitted from the map. -/
theorem C8_delimiter_agnostic :
    ∀ L ∈ CRITERIA, ∀ n : ℕ,
      extract_scores (L ++ '=' :: natDigits n) = [(L, natDigits n)] ∧
      extract_scores (L ++ ':' :: ' ' :: natDigits n) = [(L, natDigits n)] := by
  intro L hL n
  have hmem := hL
  simp only [CRITERIA, List.mem_cons, List.not_mem_nil, or_false] at hL
  rcases hL with rfl | rfl | rfl | rfl | rfl
  · exact extract_scores_singleton 'З' ("атратность".data)
      (by decide) (by decide) (by decide) (by decide)
      (natDigits_ne_nil n) (natDigits_all n)
  · exact extract_scores_singleton 'Р' ("исковость".data)
      (by decide) (by decide) (by decide) (by decide)
      (natDigits_ne_nil n) (natDigits_all n)
  · exact extract_scores_singleton 'В' ("ремя".data)
      (by decide) (by decide) (by decide) (by decide)
      (natDigits_ne_nil n) (natDigits_all n)
  · exact extract_scores_singleton 'Э' ("ффект".data)
      (by decide) (by decide) (by decide) (by decide)
      (natDigits_ne_nil n) (natDigits_all n)
  · exact extract_scores_singleton 'О' ("птимальность".data)
      (by decide) (by decide) (by decide) (by decide)
      (natDigits_ne_nil n) (natDigits_all n)

/-- Witness for C8 at the concrete criterion `Затратность` and value 3:
both delimiter forms extract the same singleton map. -/
theorem C8_delimiter_agnostic_witness :
    extract_scores (("Затратность".data) ++ '=' :: natDigits 3) =
      [(("Затратность".data), natDigits 3)] ∧
    extract_scores (("Затратность".data) ++ ':' :: ' ' :: natDigits 3) =
      [(("Затратность".data), natDigits 3)] :=
  C8_delimiter_agnostic (("Затратность".data)) (by decide) 3

/-! ## Claim C2: the tab-4 parser is total and structurally valid -/

theorem slGo_ne_nil (t : List Char) : ∀ acc, slGo acc t ≠ [] := by
  induction t with
  | nil => intro acc; simp [slGo]
  | cons c rest ih =>
    intro acc
    rw [slGo.eq_def]
    dsimp only
    by_cases h : c = '\n'
    · rw [if_pos h]; simp
    · rw [if_neg h]; exact ih (c :: acc)

theorem splitlinesC_ne_nil {t : List Char} (h : t ≠ []) :
    splitlinesC t ≠ [] := by
  unfold splitlinesC
  cases t with
  | nil => exact absurd rfl h
  | cons c rest => exact slGo_ne_nil _ []

theorem stratBlocksOf_text_ne_nil {blocks : List (List Char)} {sb : StratBlock}
    (h : sb ∈ stratBlocksOf blocks) : sb.text ≠ [] := by
  unfold stratBlocksOf at h
  obtain ⟨p, hp, hf⟩ := List.mem_filterMap.mp h
  by_cases hb : pyStrip p.2 = []
  · rw [if_pos hb] at hf; simp at hf
  · rw [if_neg hb] at hf
    by_cases hh : (headerPat (pyStrip p.2)).isSome = true
    · rw [if_pos hh] at hf
      obtain rfl : (⟨optIntOf (pyStrip p.2), p.1, pyStrip p.2⟩ : StratBlock) = sb := by
        simpa using hf
      exact hb
    · rw [if_pos] at hf
      · obtain rfl : (⟨optIntOf (pyStrip p.2), p.1, pyStrip p.2⟩ : StratBlock) = sb := by
          simpa using hf
        exact hb
      · by_contra hcon
        rw [Bool.not_eq_true] at hcon
        rw [if_neg (by rw [hcon]; simp)] at hf
        simp at hf

theorem renderOne_isSome (swotM : List (ℕ × SwotRec)) (rank : ℕ)
    {sb : StratBlock} (h : sb.text ≠ []) :
    (renderOne swotM rank sb).isSome = true := by
  unfold renderOne
  obtain ⟨l0, ls, hls⟩ := List.exists_cons_of_ne_nil (splitlinesC_ne_nil h)
  rw [hls]
  rfl

theorem renderStrats_isSome (swotM : List (ℕ × SwotRec)) :
    ∀ {l : List (ℕ × StratBlock)}, (∀ p ∈ l, p.2.text ≠ []) →
    (renderStrats swotM l).isSome = true := by
  intro l
  induction l with
  | nil => intro _; rfl
  | cons p rest ih =>
    intro h
    obtain ⟨rank, sb⟩ := p
    rw [renderStrats]
    cases hr : renderOne swotM rank sb with
    | none =>
      have := renderOne_isSome swotM rank (h (rank, sb) (List.mem_cons_self _ _))
      rw [hr] at this
      simp at this
    | some r =>
      have hrest := ih (fun q hq => h q (List.mem_cons_of_mem _ hq))
      cases hrs : renderStrats swotM rest with
      | none => rw [hrs] at hrest; simp at hrest
      | some rs => rfl

theorem sorted_text_ne_nil {text : List Char} {p : ℕ × StratBlock}
    (h : p ∈ List.enumFrom 1 (sortStrats (stratBlocksOf (splitHeader text)))) :
    p.2.text ≠ [] := by
  have h2 := List.snd_mem_of_mem_enumFrom h
  have h3 := (List.perm_insertionSort stratLE _).mem_iff.mp h2
  exact stratBlocksOf_text_ne_nil h3

theorem tab4Parse_isSome (text swot_all : List Char) :
    (tab4Parse text swot_all).isSome = true := by
  unfold tab4Parse
  have h := renderStrats_isSome (parseSwot swot_all)
    (l := List.enumFrom 1 (sortStrats (stratBlocksOf (splitHeader text))))
    (fun p hp => sorted_text_ne_nil hp)
  cases hr : renderStrats (parseSwot swot_all)
      (List.enumFrom 1 (sortStrats (stratBlocksOf (splitHeader text)))) with
  | none => rw [hr] at h; simp at h
  | some rs => rfl

theorem mem_renderStrats {swotM : List (ℕ × SwotRec)} :
    ∀ {l : List (ℕ × StratBlock)} {rs : List RStrat},
      renderStrats swotM l = some rs → ∀ {e : RStrat}, e ∈ rs →
      ∃ p ∈ l, renderOne swotM p.1 p.2 = some e := by
  intro l
  induction l with
  | nil =>
    intro rs h e he
    obtain rfl : ([] : List RStrat) = rs := by simpa [renderStrats] using h
    simp at he
  | cons p rest ih =>
    intro rs h e he
    obtain ⟨rank, sb⟩ := p
    rw [renderStrats] at h
    cases hr : renderOne swotM rank sb with
    | none => rw [hr] at h; simp at h
    | some r =>
      rw [hr] at h
      cases hrs : renderStrats swotM rest with
      | none => rw [hrs] at h; simp at h
      | some rs' =>
        rw [hrs] at h
        obtain rfl : r :: rs' = rs := by simpa using h
        rcases List.mem_cons.mp he with rfl | hmem
        · exact ⟨(rank, sb), List.mem_cons_self _ _, hr⟩
        · obtain ⟨q, hq, hqe⟩ := ih hrs hmem
          exact ⟨q, List.mem_cons_of_mem _ hq, hqe⟩

theorem renderOne_eq {swotM : List (ℕ × SwotRec)} {rank : ℕ}
    {sb : StratBlock} {e : RStrat} (h : renderOne swotM rank sb = some e) :
    e.rank = rank ∧ e.idx = sb.idx ∧ e.scores = extract_scores sb.text ∧
    e.swot = (swotGet swotM sb.idx).getD emptySwot := by
  unfold renderOne at h
  cases hh : (splitlinesC sb.text).head? with
  | none => rw [hh] at h; simp at h
  | some l0 =>
    rw [hh] at h
    dsimp only at h
    obtain rfl :
        (⟨rank, sb.idx,
          mkTitle rank (pyStrip (dropHashes (pyStrip l0))), extract_scores sb.text,
          dropScoresAndRules (dropRanking (pyStrip (joinNl
            ((splitlinesC (pyStrip (subOcenki sb.text))).drop 1)))),
          (swotGet swotM sb.idx).getD emptySwot⟩ : RStrat) = e := by
      simpa using h
    exact ⟨rfl, rfl, rfl, rfl⟩

/-- All four bullet lists of a SWOT record have at most five entries. -/
def swotLe5 (r : SwotRec) : Prop :=
  r.sS.length ≤ 5 ∧ r.sW.length ≤ 5 ∧ r.sO.length ≤ 5 ∧ r.sT.length ≤ 5

theorem catBullets_le5 (key : Char) (p : List Char) :
    (catBullets key p).length ≤ 5 := by
  unfold catBullets
  cases searchCat key p with
  | none => simp
  | some cap => exact List.length_take_le 5 _

theorem parseSwot_le5 {swot_all : List Char} {q : ℕ × SwotRec}
    (h : q ∈ parseSwot swot_all) : swotLe5 q.2 := by
  unfold parseSwot at h
  by_cases hn : swot_all = []
  · rw [if_pos hn] at h; simp at h
  · rw [if_neg hn] at h
    obtain ⟨p, hp, hf⟩ := List.mem_filterMap.mp h
    cases hm : headerPat (pyStrip p) with
    | none => rw [hm] at hf; simp at hf
    | some idx =>
      rw [hm] at hf
      obtain rfl : (idx, (⟨catBullets 'S' p, catBullets 'W' p,
          catBullets 'O' p, catBullets 'T' p⟩ : SwotRec)) = q := by
        simpa using hf
      exact ⟨catBullets_le5 'S' p, catBullets_le5 'W' p,
        catBullets_le5 'O' p, catBullets_le5 'T' p⟩

theorem swotGet_aux_mem {i : ℕ} {r : SwotRec} :
    ∀ (m : List (ℕ × SwotRec)) (acc : Option SwotRec),
      m.foldl (fun acc p => if p.1 = i then some p.2 else acc) acc = some r →
      (i, r) ∈ m ∨ acc = some r := by
  intro m
  induction m with
  | nil => intro acc h; exact Or.inr h
  | cons p rest ih =>
    intro acc h
    rw [List.foldl_cons] at h
    rcases ih _ h with hm | hacc
    · exact Or.inl (List.mem_cons_of_mem _ hm)
    · by_cases hpi : p.1 = i
      · rw [if_pos hpi] at hacc
        obtain ⟨rfl⟩ : p.2 = r := by simpa using hacc
        left
        rw [show (i, p.2) = p from by rw [← hpi]]
        exact List.mem_cons_self _ _
      · rw [if_neg hpi] at hacc
        exact Or.inr hacc

theorem swotGet_le5 {swot_all : List Char} (i : ℕ) :
    swotLe5 ((swotGet (parseSwot swot_all) i).getD emptySwot) := by
  cases hg : swotGet (parseSwot swot_all) i with
  | none => exact ⟨by simp [emptySwot], by simp [emptySwot],
      by simp [emptySwot], by simp [emptySwot]⟩
  | some r =>
    rcases swotGet_aux_mem (parseSwot swot_all) none hg with hm | hacc
    · exact parseSwot_le5 hm
    · simp at hacc

/-- Claim C2: the tab-4 strategy/SWOT parsing never raises — for every
pair of input text blobs it returns a structurally valid model: every
rendered strategy's score map is keyed by the five criteria with
non-empty digit-run values, and all four SWOT bullet lists hold at most
five entries.  On malformed input the model is simply empty: the empty
blob yields the empty model, and a blob with no sentinel structure at
all becomes a header with zero strategy records — the detectable
nothing-extractable condition. -/
theorem C2_parse_total_and_valid :
    (∀ text swot_all : List Char, (tab4Parse text swot_all).isSome = true) ∧
    (∀ text swot_all : List Char, ∀ e : RStrat,
      e ∈ ((tab4Parse text swot_all).getD ⟨[], []⟩).strategies →
      (∀ kv ∈ e.scores,
        kv.1 ∈ CRITERIA ∧ kv.2 ≠ [] ∧ kv.2.all isDigitC = true) ∧
      swotLe5 e.swot) ∧
    tab4Parse [] [] = some ⟨[], []⟩ ∧
    tab4Parse ("Просто текст без маркеров\nи нет строки оценок".data) [] =
      some ⟨("Просто текст без маркеров\nи нет строки оценок".data), []⟩ := by
  refine ⟨tab4Parse_isSome, ?_, rfl, rfl⟩
  intro text swot_all e he
  have hsome := tab4Parse_isSome text swot_all
  cases hp : tab4Parse text swot_all with
  | none => rw [hp] at hsome; simp at hsome
  | some m =>
    rw [hp] at he
    unfold tab4Parse at hp
    cases hre : renderStrats (parseSwot swot_all)
        (List.enumFrom 1 (sortStrats (stratBlocksOf (splitHeader text)))) with
    | none => rw [hre] at hp; simp at hp
    | some rs =>
      rw [hre] at hp
      have hm : m.strategies = rs := by
        have := Option.some.inj hp
        rw [← this]
      rw [Option.getD_some, hm] at he
      obtain ⟨p, hpmem, hro⟩ := mem_renderStrats hre he
      obtain ⟨_, hidx, hsc, hsw⟩ := renderOne_eq hro
      constructor
      · intro kv hkv
        rw [hsc] at hkv
        exact extract_scores_member hkv
      · rw [hsw]
        exact swotGet_le5 p.2.idx

/-- Sample inputs for the C2 witness: one well-formed strategy with a
full scores line and one SWOT section. -/
def c2main : List Char :=
  ("## Итоговые стратегии\n### Стратегия 1: Альфа\nОписание.\nОценки (0-10): Затратность=3; Рисковость=2; Время=4; Эффект=8; Оптимальность=9".data)

/-- The SWOT blob paired with `c2main`. -/
def c2swot : List Char :=
  ("## SWOT\n### Стратегия 1: Альфа\nS:\n- сила\nW:\n- слабость\nO:\n- возможность\nT:\n- угроза".data)

/-- A default rendered strategy used only to pick list heads in
witnesses. -/
def defaultR : RStrat := ⟨0, 0, [], [], [], emptySwot⟩

/-- The first rendered strategy of the C2 witness inputs. -/
def c2head : RStrat :=
  ((tab4Parse c2main c2swot).getD ⟨[], []⟩).strategies.headD defaultR

/-- Witness for C2 at concrete inputs: the parse of the sample blob
succeeds, its first rendered strategy's first score is a criterion with
a digit-run value, and its SWOT lists are within bounds. -/
theorem C2_parse_total_and_valid_witness :
    (tab4Parse c2main c2swot).isSome = true ∧
    (c2head.scores.headD ([], [])).1 ∈ CRITERIA ∧
    (c2head.scores.headD ([], [])).2 ≠ [] ∧
    (c2head.scores.headD ([], [])).2.all isDigitC = true ∧
    swotLe5 c2head.swot := by
  have h := C2_parse_total_and_valid.2.1 c2main c2swot c2head (by decide)
  have hkv := h.1 (c2head.scores.headD ([], [])) (by decide)
  exact ⟨C2_parse_total_and_valid.1 c2main c2swot,
    hkv.1, hkv.2.1, hkv.2.2, h.2⟩

/-! ## Claim C9: ranking never changes the emissionIndex-to-SWOT association -/

/-- The (emissionIndex, SWOT bullets) pairs in emission order, before
the Ranker reorders the display list. -/
def emissionPairs (text swot_all : List Char) : List (ℕ × SwotRec) :=
  (parseStrategies text).map
    (fun sb => (sb.idx, (swotGet (parseSwot swot_all) sb.idx).getD emptySwot))

/-- The (emissionIndex, SWOT bullets) pairs in display order, after the
Ranker sorts the blocks. -/
def displayPairs (text swot_all : List Char) : List (ℕ × SwotRec) :=
  (sortStrats (parseStrategies text)).map
    (fun sb => (sb.idx, (swotGet (parseSwot swot_all) sb.idx).getD emptySwot))

/-- Claim C9: for every parsed FinalStrategy result, the SWOT bullets
looked up for an emission index are identical before and after the
Ranker reorders the display list — the display pairs are a permutation
of the emission pairs with the same membership, and every rendered
strategy's SWOT is exactly the lookup of its own emission index in the
parsed SWOT map, so reordering changes only display position, never the
association. -/
theorem C9_swot_frame :
    (∀ text swot_all : List Char,
      (displayPairs text swot_all).Perm (emissionPairs text swot_all)) ∧
    (∀ (text swot_all : List Char) (i : ℕ) (sw : SwotRec),
      (i, sw) ∈ displayPairs text swot_all ↔
      (i, sw) ∈ emissionPairs text swot_all) ∧
    (∀ (text swot_all : List Char) (e : RStrat),
      e ∈ ((tab4Parse text swot_all).getD ⟨[], []⟩).strategies →
      e.swot = (swotGet (parseSwot swot_all) e.idx).getD emptySwot) := by
  have hperm : ∀ text swot_all : List Char,
      (displayPairs text swot_all).Perm (emissionPairs text swot_all) :=
    fun text swot_all =>
      (List.perm_insertionSort stratLE (parseStrategies text)).map _
  refine ⟨hperm, fun text swot_all i sw => (hperm text swot_all).mem_iff, ?_⟩
  intro text swot_all e he
  have hsome := tab4Parse_isSome text swot_all
  cases hp : tab4Parse text swot_all with
  | none => rw [hp] at hsome; simp at hsome
  | some m =>
    rw [hp] at he
    unfold tab4Parse at hp
    cases hre : renderStrats (parseSwot swot_all)
        (List.enumFrom 1 (sortStrats (stratBlocksOf (splitHeader text)))) with
    | none => rw [hre] at hp; simp at hp
    | some rs =>
      rw [hre] at hp
      have hm : m.strategies = rs := by
        have := Option.some.inj hp
        rw [← this]
      rw [Option.getD_some, hm] at he
      obtain ⟨p, hpmem, hro⟩ := mem_renderStrats hre he
      obtain ⟨_, hidx, _, hsw⟩ := renderOne_eq hro
      rw [hsw, hidx]

/-- Sample main text for the C9 witness: two strategies whose Optimality
scores make the Ranker reverse the display order. -/
def c9main : List Char :=
  ("## Итоговые стратегии\n### Стратегия 1: А\nОценки (0-10): Оптимальность=3\n### Стратегия 2: Б\nОценки (0-10): Оптимальность=9".data)

/-- The SWOT blob paired with `c9main`. -/
def c9swot : List Char :=
  ("## SWOT\n### Стратегия 1: А\nS:\n- с1\n### Стратегия 2: Б\nS:\n- с2".data)

/-- The first displayed strategy of the C9 witness inputs (emission
index 2, displayed first because its Optimality is higher). -/
def c9head : RStrat :=
  ((tab4Parse c9main c9swot).getD ⟨[], []⟩).strategies.headD defaultR

/-- Witness for C9 at concrete inputs: the ranker has moved emission
index 2 to the front, and its displayed SWOT is still the parsed map's
entry for index 2. -/
theorem C9_swot_frame_witness :
    c9head.idx = 2 ∧
    c9head.swot = (swotGet (parseSwot c9swot) c9head.idx).getD emptySwot := by
  exact ⟨by decide, C9_swot_frame.2.2 c9main c9swot c9head (by decide)⟩
